import Mathlib

set_option linter.unusedVariables false
set_option autoImplicit false

/-!
# Verification of the local NL→ERP resolution engine

Shallow embedding of the TypeScript sources of `ia-erp-universal`:
`src/ia-local/config-loader-core.ts` (ConfigLoader, IALocalService),
the session-based `IAInterpreterService`, the permission-checking
`IAOutputService.generate`, and the DeepSeek payload builder fragment.

Modelling conventions:
* JS strings are Lean `String`s / `List Char`; JS number arithmetic
  (IEEE doubles) is modelled by exact fractions (`Frac` below) — every
  numeric weight in the source is a small decimal, and no claim here is
  about rounding behaviour.
* JS regular expressions that appear in the source are hand-compiled to
  explicit scanners over `List Char` with the same semantics at the
  inputs considered (word boundary `\b` is the usual xor-of-word-chars
  rule, `\s` is whitespace, `[^\s.,;]+` is a maximal delimiter-free run).
  Regexes coming from *configuration data* (pattern tables) are modelled
  as their match predicates / capture functions.
* JS `Map` and object payloads are association lists with JS `set`
  semantics (update-in-place-or-append).
-/

/-- Exact fraction with a positive denominator; models the JS `number`
arithmetic used by the scoring code (all values involved are exact
small decimals). -/
structure Frac where
  num : Int
  den : Int
  pos : 0 < den
deriving DecidableEq

namespace Frac

def ofInt (n : Int) : Frac := ⟨n, 1, by norm_num⟩

instance (n : Nat) : OfNat Frac n := ⟨ofInt n⟩

def add (a b : Frac) : Frac :=
  ⟨a.num * b.den + b.num * a.den, a.den * b.den, mul_pos a.pos b.pos⟩

def mul (a b : Frac) : Frac :=
  ⟨a.num * b.num, a.den * b.den, mul_pos a.pos b.pos⟩

/-- Division; the `b.num = 0` guard is never hit by the embedded code
(every divisor in the source is a positive count). -/
def div (a b : Frac) : Frac :=
  if h : b.num = 0 then ⟨0, 1, by norm_num⟩
  else if h2 : 0 < b.num then
    ⟨a.num * b.den, a.den * b.num, mul_pos a.pos h2⟩
  else
    ⟨-(a.num * b.den), a.den * (-b.num), mul_pos a.pos (by omega)⟩

instance : Add Frac := ⟨add⟩
instance : Mul Frac := ⟨mul⟩
instance : Div Frac := ⟨div⟩

/-- JS `<` on numbers. -/
def blt (a b : Frac) : Bool := a.num * b.den < b.num * a.den

/-- JS `<=` on numbers. -/
def ble (a b : Frac) : Bool := a.num * b.den ≤ b.num * a.den

/-- JS `===` on numbers (value equality). -/
def beq (a b : Frac) : Bool := a.num * b.den == b.num * a.den

/-- JS `Math.min`. -/
def fmin (a b : Frac) : Frac := if blt a b then a else b

/-- JS `Math.max`. -/
def fmax (a b : Frac) : Frac := if blt a b then b else a

/-- Interpretation into the rationals, used for all order reasoning. -/
def toRat (a : Frac) : ℚ := (a.num : ℚ) / (a.den : ℚ)

theorem den_ne (a : Frac) : (a.den : ℚ) ≠ 0 := by
  have := a.pos; exact_mod_cast (by omega : (a.den : Int) ≠ 0)

theorem den_pos (a : Frac) : (0 : ℚ) < (a.den : ℚ) := by
  exact_mod_cast a.pos

theorem toRat_ofInt (n : Int) : toRat (ofInt n) = (n : ℚ) := by
  simp [toRat, ofInt]

theorem toRat_add (a b : Frac) : toRat (a + b) = toRat a + toRat b := by
  show toRat (add a b) = _
  unfold toRat add
  rw [div_add_div _ _ (den_ne a) (den_ne b)]
  push_cast
  ring_nf

theorem toRat_mul (a b : Frac) : toRat (a * b) = toRat a * toRat b := by
  show toRat (mul a b) = _
  unfold toRat mul
  rw [div_mul_div_comm]
  push_cast
  ring_nf

theorem blt_iff (a b : Frac) : blt a b = true ↔ toRat a < toRat b := by
  unfold blt toRat
  rw [div_lt_div_iff₀ (den_pos a) (den_pos b)]
  constructor
  · intro h
    have h' : a.num * b.den < b.num * a.den := by simpa using h
    exact_mod_cast h'
  · intro h
    have h' : a.num * b.den < b.num * a.den := by exact_mod_cast h
    simpa using h'

theorem ble_iff (a b : Frac) : ble a b = true ↔ toRat a ≤ toRat b := by
  unfold ble toRat
  rw [div_le_div_iff₀ (den_pos a) (den_pos b)]
  constructor
  · intro h
    have h' : a.num * b.den ≤ b.num * a.den := by simpa using h
    exact_mod_cast h'
  · intro h
    have h' : a.num * b.den ≤ b.num * a.den := by exact_mod_cast h
    simpa using h'

theorem beq_iff (a b : Frac) : beq a b = true ↔ toRat a = toRat b := by
  unfold beq toRat
  rw [div_eq_div_iff (den_ne a) (den_ne b)]
  constructor
  · intro h
    have h' : a.num * b.den = b.num * a.den := by simpa using h
    exact_mod_cast h'
  · intro h
    have h' : a.num * b.den = b.num * a.den := by exact_mod_cast h
    simpa using h'

theorem blt_false_iff (a b : Frac) : blt a b = false ↔ toRat b ≤ toRat a := by
  rw [← Bool.not_eq_true, blt_iff]
  exact not_lt

theorem toRat_fmin (a b : Frac) : toRat (fmin a b) = min (toRat a) (toRat b) := by
  unfold fmin
  by_cases h : blt a b = true
  · rw [if_pos h]
    rw [blt_iff] at h
    exact (min_eq_left h.le).symm
  · rw [if_neg h]
    rw [Bool.not_eq_true, blt_false_iff] at h
    exact (min_eq_right h).symm

end Frac

/-- Shorthand for fraction literals from the source (`q 15 100` is `0.15`);
a non-positive denominator falls back to 1 (never used). -/
def q (n : Int) (d : Int) : Frac :=
  if h : 0 < d then ⟨n, d, h⟩ else ⟨n, 1, by norm_num⟩

/-! ## Characters and JS string primitives -/

/-- JS `\s` (the whitespace characters relevant to this code base). -/
def isWsChar (c : Char) : Bool := c == ' ' || c == '\t' || c == '\n' || c == '\r'

/-- JS `\w`, the word characters of the `\b` boundary rule. -/
def isWordChar (c : Char) : Bool :=
  ('a' ≤ c && c ≤ 'z') || ('A' ≤ c && c ≤ 'Z') || ('0' ≤ c && c ≤ '9') || c == '_'

/-- JS `String.prototype.toLowerCase`, restricted to ASCII (the
configuration data and messages in the scenarios are ASCII). -/
def jsToLower (c : Char) : Char :=
  if 65 ≤ c.toNat ∧ c.toNat ≤ 90 then Char.ofNat (c.toNat + 32) else c

/-- JS `String.prototype.toUpperCase`, restricted to ASCII. -/
def jsToUpper (c : Char) : Char :=
  if 97 ≤ c.toNat ∧ c.toNat ≤ 122 then Char.ofNat (c.toNat - 32) else c

def lower (s : List Char) : List Char := s.map jsToLower

def upper (s : List Char) : List Char := s.map jsToUpper

/-- Literal helper: the character list of a string literal. -/
def str (s : String) : List Char := s.data

/-- JS `String.prototype.includes` (substring anywhere). -/
def hasSubstr (s p : List Char) : Bool :=
  if p.isPrefixOf s then true else
    match s with
    | [] => false
    | _ :: t => hasSubstr t p

/-- Case-insensitive literal match at the current position (regex `i` flag). -/
def matchesCIAt (p s : List Char) : Bool :=
  (p.map jsToLower).isPrefixOf (s.map jsToLower)

/-- Model of `\b` between two adjacent characters (out of range = not a word char). -/
def boundary (l r : Option Char) : Bool :=
  (match l with | none => false | some c => isWordChar c) !=
    (match r with | none => false | some c => isWordChar c)

/-- Does `\b<p>\b` (with `p` a nonempty literal) match at the start of `s`,
where `prev` is the character just before `s` in the full text? -/
def tryWordAt (p : List Char) (prev : Option Char) (s : List Char) : Bool :=
  matchesCIAt p s && boundary prev s.head? &&
    boundary (s.take p.length).getLast? (s.drop p.length).head?

def wordSearch (p : List Char) (prev : Option Char) (s : List Char) : Bool :=
  tryWordAt p prev s ||
    match s with
    | [] => false
    | c :: t => wordSearch p (some c) t

/-- JS `new RegExp("\\b" ++ p ++ "\\b", "i").test s` for a nonempty literal
word `p` (the empty pattern is unused by the configurations considered). -/
def testWholeWord (p s : List Char) : Bool :=
  p ≠ [] && wordSearch p none s

/-- One step of the global replace `s.replace(/\b<w>\b/gi, repl)`:
`prev` is the character preceding `s` in the original text.  After a hit the
scan resumes after the matched text, and the boundary context is the last
matched character (boundaries are computed on the original string).  The
fuel argument makes the recursion structural; every step consumes at least
one character, so fuel `s.length` is always enough. -/
def replaceWWAux (w repl : List Char) : Nat → Option Char → List Char → List Char
  | 0, _, _ => []
  | _ + 1, _, [] => []
  | fuel + 1, prev, c :: t =>
    if w ≠ [] ∧ tryWordAt w prev (c :: t) = true then
      repl ++ replaceWWAux w repl fuel ((c :: t).take w.length).getLast?
        ((c :: t).drop w.length)
    else
      c :: replaceWWAux w repl fuel (some c) t

def replaceWW (w repl s : List Char) : List Char :=
  replaceWWAux w repl s.length none s

/-- Length of the leading whitespace run. -/
def wsRunLen : List Char → Nat
  | [] => 0
  | c :: t => if isWsChar c then wsRunLen t + 1 else 0

/-- Length matched by `/\s+\b<w>\b\s+/i` at the start of `s` (`none` = no
match).  The stop words of the configurations contain no whitespace, so the
greedy `\s+` runs need no backtracking. -/
def stopMatchLen (w s : List Char) : Option Nat :=
  if wsRunLen s = 0 then none
  else if matchesCIAt w (s.drop (wsRunLen s)) &&
      boundary (s.take (wsRunLen s)).getLast? (s.drop (wsRunLen s)).head? &&
      boundary ((s.drop (wsRunLen s)).take w.length).getLast?
        ((s.drop (wsRunLen s)).drop w.length).head? then
    if wsRunLen ((s.drop (wsRunLen s)).drop w.length) = 0 then none
    else some (wsRunLen s + w.length + wsRunLen ((s.drop (wsRunLen s)).drop w.length))
  else none

theorem stopMatchLen_pos (w s : List Char) (l : Nat)
    (h : stopMatchLen w s = some l) : 1 ≤ l := by
  unfold stopMatchLen at h
  split_ifs at h with h1 h2 h3
  simp only [Option.some.injEq] at h
  omega

/-- One step of the global replace `s.replace(/\s+\b<w>\b\s+/gi, ' ')`;
fuelled like `replaceWWAux`. -/
def replaceStopAux (w : List Char) : Nat → List Char → List Char
  | 0, _ => []
  | _ + 1, [] => []
  | fuel + 1, c :: t =>
    match stopMatchLen w (c :: t) with
    | some l => ' ' :: replaceStopAux w fuel ((c :: t).drop l)
    | none => c :: replaceStopAux w fuel t

def replaceStop (w s : List Char) : List Char := replaceStopAux w s.length s

/-- JS `String.prototype.trim` (prefix part). -/
def trimLeft : List Char → List Char
  | [] => []
  | c :: t => if isWsChar c then trimLeft t else c :: t

/-- JS `String.prototype.trim`. -/
def jsTrim (s : List Char) : List Char :=
  (trimLeft (trimLeft s).reverse).reverse

/-- The whitespace-separated words of `s` (no empty chunks); models
`s.split(/\s+/)` in the positions where the caller filters by length
`> 2` (which removes the boundary empty chunks JS keeps). -/
def wordsAux (acc : List Char) : List Char → List (List Char)
  | [] => if acc = [] then [] else [acc.reverse]
  | c :: t =>
    if isWsChar c then
      if acc = [] then wordsAux [] t else acc.reverse :: wordsAux [] t
    else wordsAux (c :: acc) t

def wsWords (s : List Char) : List (List Char) := wordsAux [] s

/-- Words joined by single spaces. -/
def renderWords : List (List Char) → List Char
  | [] => []
  | [w] => w
  | w :: ws => w ++ ' ' :: renderWords ws

/-- Model of `s.replace(/\s+/g, ' ').trim()`: collapse whitespace runs and trim. -/
def collapseWsTrim (s : List Char) : List Char :=
  renderWords (wsWords s)

/-- JS `s.split(regexOfSingleSeparatorChars)` (keeps empty chunks; the
callers filter them away by length). -/
def splitSeps (sep : Char → Bool) : List Char → List (List Char)
  | [] => [[]]
  | c :: t =>
    if sep c then [] :: splitSeps sep t
    else
      match splitSeps sep t with
      | [] => [[c]]
      | h :: ts => (c :: h) :: ts

/-- JS `Set` built from a list: first occurrences, insertion order. -/
def uniqAux (seen : List (List Char)) : List (List Char) → List (List Char)
  | [] => []
  | x :: t => if seen.contains x then uniqAux seen t else x :: uniqAux (x :: seen) t

def uniq (l : List (List Char)) : List (List Char) := uniqAux [] l

/-- Model of `calculateSimilarity` from `src/ia-local/utils.ts`: Jaccard similarity
of the two word sets (words of length > 2). -/
def calculateSimilarity (text1 text2 : List Char) : Frac :=
  if text1 = [] || text2 = [] then 0
  else
    let words1 := uniq ((wsWords (lower text1)).filter (fun w => 2 < w.length))
    let words2 := uniq ((wsWords (lower text2)).filter (fun w => 2 < w.length))
    if words1.length = 0 || words2.length = 0 then 0
    else
      let inter := words1.filter (fun x => words2.contains x)
      let union := uniq (words1 ++ words2)
      Frac.ofInt inter.length / Frac.ofInt union.length

/-- JS `parseInt(s, 10)` (`none` = `NaN`); digits after optional sign. -/
def jsParseInt (s : List Char) : Option Int :=
  let t := trimLeft s
  let core := fun (l : List Char) =>
    let ds := l.takeWhile (fun c => '0' ≤ c && c ≤ '9')
    if ds = [] then (none : Option Nat)
    else some (ds.foldl (fun n c => n * 10 + (c.toNat - 48)) 0)
  match t with
  | '-' :: r => (core r).map (fun n => -(n : Int))
  | r => (core r).map (fun n => (n : Int))

/-! ## Configuration model (`config-mapping.ts`)

Regexes stored in the configuration tables (`patrones.*`) are data, not
source code; they are modelled by their match predicates
(`List Char → Bool`) and, for extraction, capture functions
(`List Char → Option (List Char)`). -/

/-- Model of `puntuacion.modulo`. -/
structure PuntuacionModulo where
  coincidenciaExacta : Frac
  coincidenciaPalabraCompleta : Frac
  coincidenciaParcial : Frac
  palabraRelacionada : Frac
  umbralMinimo : Frac

/-- Model of `puntuacion.accion`. -/
structure PuntuacionAccion where
  coincidenciaExacta : Frac
  coincidenciaPalabraCompleta : Frac
  coincidenciaParcial : Frac
  expresionTipica : Frac
  umbralMinimo : Frac

/-- One entry of `vocabulario.modulos` (the unused `sinonimosDirectos`
table is omitted: no embedded function reads it). -/
structure ModuloVocab where
  palabrasClave : List (List Char)
  palabrasRelacionadas : List (List Char)

/-- One entry of `vocabulario.acciones`; `expresionesTipicas` are regex
templates, modelled as match predicates. -/
structure AccionVocab where
  palabrasClave : List (List Char)
  sinonimos : List (List Char)
  expresionesTipicas : List (List Char → Bool)

/-- The validated configuration as used by `ConfigLoader`'s accessors. -/
structure ConfigMapping where
  umbralMinimoConfianza : Frac
  correccionesOrtograficas : List (List Char × List Char)
  eliminarPalabras : List (List Char)
  palabrasVacias : List (List Char)
  modulos : List (List Char × ModuloVocab)
  acciones : List (List Char × AccionVocab)
  detectarAccion : List (List Char × List (List Char → Bool))
  detectarModulo : List (List Char × List (List Char → Bool))
  extraerParametros : List (List Char × List (List Char → Option (List Char)))
  puntuacionModulo : PuntuacionModulo
  puntuacionAccion : PuntuacionAccion
  moduloPorDefecto : List Char
  accionPorDefecto : List Char

/-- Association-list lookup (JS `record[key]`). -/
def alookup {α : Type} (k : List Char) (l : List (List Char × α)) : Option α :=
  (l.find? (fun p => p.1 == k)).map (·.2)

namespace ConfigLoader

/-- Model of `getPalabrasClaveModulo` (`?.palabrasClave || []`). -/
def getPalabrasClaveModulo (cfg : ConfigMapping) (modulo : List Char) :
    List (List Char) :=
  ((alookup modulo cfg.modulos).map (·.palabrasClave)).getD []

def getPalabrasRelacionadasModulo (cfg : ConfigMapping) (modulo : List Char) :
    List (List Char) :=
  ((alookup modulo cfg.modulos).map (·.palabrasRelacionadas)).getD []

def getAccionesConfiguradas (cfg : ConfigMapping) : List (List Char) :=
  cfg.acciones.map (·.1)

def getPalabrasClaveAccion (cfg : ConfigMapping) (accion : List Char) :
    List (List Char) :=
  ((alookup accion cfg.acciones).map (·.palabrasClave)).getD []

def getSinonimosAccion (cfg : ConfigMapping) (accion : List Char) :
    List (List Char) :=
  ((alookup accion cfg.acciones).map (·.sinonimos)).getD []

def getExpresionesTipicasAccion (cfg : ConfigMapping) (accion : List Char) :
    List (List Char → Bool) :=
  ((alookup accion cfg.acciones).map (·.expresionesTipicas)).getD []

def getPatronesAccion (cfg : ConfigMapping) (accion : List Char) :
    List (List Char → Bool) :=
  (alookup accion cfg.detectarAccion).getD []

def getPatronesModulo (cfg : ConfigMapping) (modulo : List Char) :
    List (List Char → Bool) :=
  (alookup modulo cfg.detectarModulo).getD []

def getPatronesExtraccion (cfg : ConfigMapping) (tipo : List Char) :
    List (List Char → Option (List Char)) :=
  (alookup tipo cfg.extraerParametros).getD []

/-- Model of `ConfigLoader.normalizarTexto`: lower-case, whole-word spelling
corrections, whole-word removals (each followed by `.trim()`), stop-word
run collapsing (each followed by `.trim()`), final whitespace collapse
and trim. -/
def normalizarTexto (cfg : ConfigMapping) (texto : List Char) : List Char :=
  if texto = [] then []
  else
    let n0 := lower texto
    let n1 := cfg.correccionesOrtograficas.foldl
      (fun acc ec => replaceWW ec.1 ec.2 acc) n0
    let n2 := cfg.eliminarPalabras.foldl
      (fun acc p => jsTrim (replaceWW p [] acc)) n1
    let n3 := cfg.palabrasVacias.foldl
      (fun acc p => jsTrim (replaceStop p acc)) n2
    collapseWsTrim n3

/-- Sum of a `Frac`-valued function over a list (the `forEach` loops that
accumulate into `puntuacion`). -/
def sumF {α : Type} (l : List α) (f : α → Frac) : Frac :=
  (l.map f).foldl (· + ·) 0

/-- Model of `ConfigLoader.calcularPuntuacionModulo`. -/
def calcularPuntuacionModulo (cfg : ConfigMapping) (texto modulo : List Char) :
    Frac :=
  let w := cfg.puntuacionModulo
  let textoLower := lower texto
  sumF (getPalabrasClaveModulo cfg modulo) (fun palabra =>
    let p := lower palabra
    if textoLower = p then w.coincidenciaExacta
    else if testWholeWord p textoLower then w.coincidenciaPalabraCompleta
    else if hasSubstr textoLower p then w.coincidenciaParcial
    else 0) +
  sumF (getPalabrasRelacionadasModulo cfg modulo) (fun palabra =>
    if testWholeWord (lower palabra) textoLower then w.palabraRelacionada else 0) +
  sumF (getPatronesModulo cfg modulo) (fun patron =>
    if patron textoLower then w.coincidenciaPalabraCompleta else 0)

/-- Model of `ConfigLoader.calcularPuntuacionAccion`. -/
def calcularPuntuacionAccion (cfg : ConfigMapping) (texto accion : List Char) :
    Frac :=
  let w := cfg.puntuacionAccion
  let textoLower := lower texto
  sumF (getPalabrasClaveAccion cfg accion) (fun palabra =>
    let p := lower palabra
    if textoLower = p then w.coincidenciaExacta
    else if testWholeWord p textoLower then w.coincidenciaPalabraCompleta
    else if hasSubstr textoLower p then w.coincidenciaParcial
    else 0) +
  sumF (getSinonimosAccion cfg accion) (fun s =>
    if testWholeWord (lower s) textoLower then w.coincidenciaPalabraCompleta else 0) +
  sumF (getPatronesAccion cfg accion ++ getExpresionesTipicasAccion cfg accion)
    (fun patron => if patron textoLower then w.expresionTipica else 0)

/-- Model of `ConfigLoader.extraerParametro`: first extraction template whose
capture group is non-empty (`if (match && match[1]) return match[1]`). -/
def extraerParametro (cfg : ConfigMapping) (texto tipo : List Char) :
    Option (List Char) :=
  let rec firstCapture : List (List Char → Option (List Char)) →
      Option (List Char)
    | [] => none
    | p :: ps =>
      match p texto with
      | some v => if v ≠ [] then some v else firstCapture ps
      | none => firstCapture ps
  firstCapture (getPatronesExtraccion cfg tipo)

/-- Head of a stable descending sort by score, i.e. the first strict
maximum (`resultados.sort((a, b) => b.puntuacion - a.puntuacion)[0]`). -/
def pickBestBy {α : Type} (score : α → Frac) : List α → Option α
  | [] => none
  | x :: t => some (t.foldl (fun best y =>
      if Frac.blt (score best) (score y) then y else best) x)

/-- Model of `ConfigLoader.detectarMejorModulo`. -/
def detectarMejorModulo (cfg : ConfigMapping) (texto : List Char)
    (modulosDisponibles : List (List Char)) : List Char × Frac :=
  (pickBestBy Prod.snd (modulosDisponibles.map
    (fun m => (m, calcularPuntuacionModulo cfg texto m)))).getD
    (cfg.moduloPorDefecto, 0)

/-- Model of `ConfigLoader.detectarMejorAccion`. -/
def detectarMejorAccion (cfg : ConfigMapping) (texto : List Char) :
    List Char × Frac :=
  (pickBestBy Prod.snd ((getAccionesConfiguradas cfg).map
    (fun a => (a, calcularPuntuacionAccion cfg texto a)))).getD
    (cfg.accionPorDefecto, 0)

end ConfigLoader

/-! ## `IALocalService` (`config-loader-core.ts`, second part) -/

/-- JS payload values (endpoint payload templates and extracted values). -/
inductive JValue where
  | jUndef : JValue
  | jNull : JValue
  | jStr : List Char → JValue
  | jInt : Int → JValue
  | jBool : Bool → JValue
  | jObj : List (List Char × JValue) → JValue

/-- Model of `ERPConfigEndpoint` (`erp-config.service.ts`). -/
structure ERPConfigEndpoint where
  intencion : List Char
  descripcion : List Char
  endpoint : List Char
  metodo : List Char
  payload : List (List Char × JValue)
  tipo_salida : List Char

/-- Caller permissions (`context.permisos`). -/
structure Permisos where
  modulos : List (List Char)
  acciones : List (List Char)
deriving DecidableEq

namespace IALocalService

/-- Model of `interpretModuleCRUD`. -/
def interpretModuleCRUD (cfg : ConfigMapping) (message : List Char)
    (permisos : Permisos) : List Char × List Char :=
  let msgNormalizada := ConfigLoader.normalizarTexto cfg message
  let ma := ConfigLoader.detectarMejorAccion cfg msgNormalizada
  let pac := cfg.puntuacionAccion
  let accionFinal :=
    if Frac.ble pac.umbralMinimo ma.2 then ma.1 else cfg.accionPorDefecto
  let puntuacionFinal :=
    if Frac.ble pac.umbralMinimo ma.2 then ma.2 else Frac.ofInt 1
  let candidates := permisos.modulos.map (fun mod_ =>
    let pm := ConfigLoader.calcularPuntuacionModulo cfg msgNormalizada mod_
    if Frac.blt pm cfg.puntuacionModulo.umbralMinimo then
      (mod_, accionFinal, (0 : Frac))
    else
      (mod_, accionFinal, pm + puntuacionFinal))
  match ConfigLoader.pickBestBy (fun c => c.2.2) candidates with
  | some mejor =>
    if Frac.ble cfg.umbralMinimoConfianza mejor.2.2 then (mejor.1, mejor.2.1)
    else (cfg.moduloPorDefecto, cfg.accionPorDefecto)
  | none => (cfg.moduloPorDefecto, cfg.accionPorDefecto)

/-- The hard-coded `palabrasIrrelevantesERP` list. -/
def palabrasIrrelevantesERP : List (List Char) :=
  [str "gemini", str "gpt", str "chatgpt", str "openai", str "llm", str "ia",
   str "inteligencia", str "artificial",
   str "juegos", str "jugar", str "videojuego", str "diversion",
   str "entretenimiento",
   str "abrir", str "usar", str "llamar", str "invocar", str "ejecutar",
   str "correr", str "probar", str "testear",
   str "endpoint", str "api", str "url", str "enlace", str "link",
   str "direccion", str "ruta"]

/-- Model of `contienePalabrasIrrelevantesParaERP` (`texto.includes(palabra)`:
substring anywhere, not whole-token). -/
def contienePalabrasIrrelevantesParaERP (texto : List Char) : Bool :=
  palabrasIrrelevantesERP.any (fun palabra => hasSubstr texto palabra)

/-- Model of `esPalabraVacia`. -/
def esPalabraVacia (cfg : ConfigMapping) (palabra : List Char) : Bool :=
  cfg.palabrasVacias.contains (lower palabra)

/-- The combined relevant-vocabulary list used by three scoring helpers. -/
def palabrasRelevantes (cfg : ConfigMapping) (modulo accion : List Char) :
    List (List Char) :=
  (ConfigLoader.getPalabrasClaveModulo cfg modulo ++
   ConfigLoader.getPalabrasRelacionadasModulo cfg modulo ++
   ConfigLoader.getPalabrasClaveAccion cfg accion ++
   ConfigLoader.getSinonimosAccion cfg accion).map lower

/-- Model of `calcularRelevanciaMensaje`. -/
def calcularRelevanciaMensaje (cfg : ConfigMapping)
    (texto modulo accion : List Char) : Frac :=
  let textoLower := lower texto
  let relevantes := palabrasRelevantes cfg modulo accion
  let palabrasMensaje := ((wsWords textoLower).filter
    (fun w => 2 < w.length)).filter (fun w => ¬ esPalabraVacia cfg w)
  if palabrasMensaje.length = 0 then 0
  else if contienePalabrasIrrelevantesParaERP textoLower then 0
  else
    let encontradas := (palabrasMensaje.filter (fun palabra =>
      relevantes.any (fun relevante =>
        relevante == palabra || hasSubstr relevante palabra ||
          hasSubstr palabra relevante))).length
    let proporcion := Frac.ofInt encontradas / Frac.ofInt palabrasMensaje.length
    if Frac.blt proporcion (q 6 10) then proporcion * q 2 10 else proporcion

/-- Model of `esPalabraTecnica`. -/
def esPalabraTecnica (palabra : List Char) : Bool :=
  [str "api", str "v1", str "v2", str "v3", str "rest", str "json",
   str "xml", str "http", str "https", str "www"].contains (lower palabra)

/-- Model of `calcularCoincidenciaEndpointCorregida`. -/
def calcularCoincidenciaEndpointCorregida (cfg : ConfigMapping)
    (texto endpoint modulo accion : List Char) : Frac :=
  let textoLower := lower texto
  let endpointLower := lower endpoint
  let relevantes := palabrasRelevantes cfg modulo accion
  let partesEndpoint := ((splitSeps
      (fun c => c == '/' || c == '-' || c == '_') endpointLower).filter
    (fun part => 2 < part.length)).filter (fun part => ¬ esPalabraTecnica part)
  if partesEndpoint.length = 0 then 0
  else
    let co := ConfigLoader.sumF partesEndpoint (fun parte =>
      let estaEnTexto := hasSubstr textoLower parte
      let esRelevante := relevantes.any (fun palabra =>
        palabra == parte || hasSubstr palabra parte || hasSubstr parte palabra)
      if estaEnTexto && esRelevante then Frac.ofInt 1
      else if estaEnTexto then q 1 10
      else 0)
    Frac.fmin (co / Frac.ofInt (max 1 partesEndpoint.length)) (Frac.ofInt 1)

/-- Model of `calcularKeywordScoreUsandoConfig`. -/
def calcularKeywordScoreUsandoConfig (cfg : ConfigMapping)
    (texto descripcion modulo accion : List Char) : Frac :=
  if descripcion = [] || (jsTrim descripcion).length = 0 then 0
  else
    let descLower := lower descripcion
    let relevantes := palabrasRelevantes cfg modulo accion
    if relevantes.length = 0 then 0
    else
      let palabrasDesc := (wsWords descLower).filter (fun w => 2 < w.length)
      let co := ConfigLoader.sumF relevantes (fun palabra =>
        if palabrasDesc.contains palabra then Frac.ofInt 2
        else if palabrasDesc.any (fun pDesc =>
            hasSubstr pDesc palabra || hasSubstr palabra pDesc) then
          Frac.ofInt 1
        else 0)
      let maxEsperado := relevantes.length * 2
      Frac.fmin (co / Frac.ofInt (max 1 maxEsperado)) (Frac.ofInt 1)

/-- The five-signal endpoint score of `interpretEndpoint` for one
candidate endpoint. -/
def endpointScore (cfg : ConfigMapping) (msgNormalizada : List Char)
    (modulo accion : List Char) (ep : ERPConfigEndpoint) : Frac :=
  let intentText := ConfigLoader.normalizarTexto cfg ep.intencion
  let descText := ConfigLoader.normalizarTexto cfg ep.descripcion
  let intentMatch := calculateSimilarity msgNormalizada intentText
  let descMatch := calculateSimilarity msgNormalizada descText
  let keywordScore :=
    calcularKeywordScoreUsandoConfig cfg msgNormalizada descText modulo accion
  let endpointMatch := calcularCoincidenciaEndpointCorregida cfg msgNormalizada
    ep.endpoint modulo accion
  let relevanciaScore := calcularRelevanciaMensaje cfg msgNormalizada modulo accion
  let pc := cfg.puntuacionAccion
  let scoreIntencion := intentMatch * q 15 100 * pc.coincidenciaExacta
  let scoreDescripcion := descMatch * q 15 100 * pc.coincidenciaExacta
  let scoreKeywords := keywordScore * q 15 100 * pc.coincidenciaPalabraCompleta
  let scoreEndpoint := endpointMatch * q 15 100 * pc.expresionTipica
  let scoreRelevancia := relevanciaScore * q 40 100
  Frac.fmin (scoreIntencion + scoreDescripcion + scoreKeywords +
    scoreEndpoint + scoreRelevancia) (Frac.ofInt 1)

/-- Result record of `interpretEndpoint`. -/
structure EndpointResult where
  endpoint : List Char
  payload : List (List Char × JValue)
  endpointConfig : ERPConfigEndpoint
  confidence : Frac

/-- Model of `interpretEndpoint`; the candidate list comes from the external
endpoint catalog (`erpConfigService.getEndpoints`), so it is a parameter.
Thrown `Error`s are modelled by their message strings (the non-ASCII
`encontró` is transliterated). -/
def interpretEndpoint (cfg : ConfigMapping) (message : List Char)
    (endpoints : List ERPConfigEndpoint) (module_ action : List Char) :
    Except (List Char) EndpointResult :=
  let msgNormalizada := ConfigLoader.normalizarTexto cfg message
  if endpoints.isEmpty then
    .error (str "No hay endpoints para " ++ module_ ++ str "/" ++ action)
  else
    let scoredEndpoints := endpoints.map
      (fun ep => (ep, endpointScore cfg msgNormalizada module_ action ep))
    match ConfigLoader.pickBestBy Prod.snd scoredEndpoints with
    | none => .error (str "No hay endpoints para " ++ module_ ++ str "/" ++ action)
    | some mejorEndpoint =>
      if Frac.blt mejorEndpoint.2 cfg.umbralMinimoConfianza then
        .error (str "No se encontro endpoint con suficiente coincidencia")
      else
        let payload := mejorEndpoint.1.payload.map (fun kv =>
          match ConfigLoader.extraerParametro cfg msgNormalizada kv.1 with
          | some v => (kv.1, JValue.jStr v)
          | none => kv)
        .ok ⟨mejorEndpoint.1.endpoint, payload, mejorEndpoint.1, mejorEndpoint.2⟩

end IALocalService

/-! ## `IALocalService.interpret` and `interpretLocal` -/

/-- Model of `IALocalOutput` / `IAOutputSchema`: what the interpreter motors return
and what sessions store as `originalResult`. -/
structure IAResult where
  module : List Char
  action : List Char
  endpoint : List Char
  payload : List (List Char × JValue)
  preview : List (List Char × JValue)
  method : List Char
  confidence : Option Frac

namespace IALocalService

/-- Model of `IALocalService.interpret`; the endpoint catalog lookup
(`erpConfigService.getEndpoints(erp, module, action)`) is the function
parameter `endpointsFor`. -/
def interpret (cfg : ConfigMapping)
    (endpointsFor : List Char → List Char → List ERPConfigEndpoint)
    (message : List Char) (permisos : Permisos) :
    Except (List Char) IAResult :=
  let mc := interpretModuleCRUD cfg message permisos
  match interpretEndpoint cfg message (endpointsFor mc.1 mc.2) mc.1 mc.2 with
  | .error e => .error e
  | .ok r =>
    .ok ⟨mc.1, mc.2, r.endpoint, r.payload,
      (if r.endpointConfig.tipo_salida == str "preview" then r.payload else []),
      r.endpointConfig.metodo, some r.confidence⟩

end IALocalService

/-- Model of `interpretLocal` (`ia-interpreter.local.ts`): runs the local service and
throws `Módulo no permitido` when the resolved module is outside
`modulosDisponibles` (transliterated message). -/
def interpretLocal (cfg : ConfigMapping)
    (endpointsFor : List Char → List Char → List ERPConfigEndpoint)
    (message : List Char) (permisos : Permisos)
    (modulosDisponibles : List (List Char)) : Except (List Char) IAResult :=
  match IALocalService.interpret cfg endpointsFor message permisos with
  | .error e => .error e
  | .ok result =>
    if modulosDisponibles.contains result.module then .ok result
    else .error (str "Modulo no permitido: " ++ result.module)

/-! ## `IAInterpreterService` (sessions, follow-ups, TTL sweep) -/

/-- Delimiters of the `[^\s.,;]` character class in `findParameterValue`. -/
def isDelim (c : Char) : Bool := isWsChar c || c == '.' || c == ',' || c == ';'

/-- Literal match (case-insensitive), consuming the literal. -/
def pLit (w s : List Char) : Option (List Char) :=
  if matchesCIAt w s then some (s.drop w.length) else none

/-- Model of `\s+` (greedy, the following atoms never start with whitespace). -/
def pWs1 (s : List Char) : Option (List Char) :=
  if wsRunLen s = 0 then none else some (s.drop (wsRunLen s))

/-- Model of `[^\s.,;]+` (greedy maximal run). -/
def pTok (s : List Char) : Option (List Char × List Char) :=
  let t := s.takeWhile (fun c => !isDelim c)
  if t.isEmpty then none else some (t, s.drop t.length)

/-- Model of `(?:\s+[^\s.,;]+)*`, greedy; captures the matched text verbatim.
Fuelled (each iteration consumes at least two characters). -/
def multiTokExt : Nat → List Char → List Char × List Char
  | 0, s => ([], s)
  | fuel + 1, s =>
    if wsRunLen s = 0 then ([], s)
    else
      match pTok (s.drop (wsRunLen s)) with
      | none => ([], s)
      | some (t, r) =>
        let e := multiTokExt fuel r
        (s.take (wsRunLen s) ++ t ++ e.1, e.2)

/-- Model of `[^\s.,;]+(?:\s+[^\s.,;]+)*` (the multi-word capture group). -/
def multiTok (s : List Char) : Option (List Char × List Char) :=
  match pTok s with
  | none => none
  | some (t, r) => some (t ++ (multiTokExt r.length r).1, (multiTokExt r.length r).2)

/-- Leftmost regex search: try the position matcher at every suffix. -/
def scanSuffixes {α : Type} (f : List Char → Option α) : List Char → Option α
  | [] => f []
  | c :: t =>
    match f (c :: t) with
    | some r => some r
    | none => scanSuffixes f t

/-- Pattern 1 of `findParameterValue`:
`{p}\s+(es|de|:|es\s+de)\s+([^\s.,;]+(?:\s+[^\s.,;]+)*)`, yielding
`match[2]`; alternatives are tried left to right as in JS. -/
def p1At (p s : List Char) : Option (List Char) :=
  (pLit p s).bind fun r1 => (pWs1 r1).bind fun r2 =>
    let contWith := fun (w : List Char) =>
      (pLit w r2).bind fun ra => (pWs1 ra).bind fun rb => (multiTok rb).map (·.1)
    let contEsDe :=
      (pLit (str "es") r2).bind fun a => (pWs1 a).bind fun b =>
        (pLit (str "de") b).bind fun c => (pWs1 c).bind fun d =>
          (multiTok d).map (·.1)
    (contWith (str "es")).orElse fun _ =>
      (contWith (str "de")).orElse fun _ =>
        (contWith (str ":")).orElse fun _ => contEsDe

/-- Pattern 2: `con\s+{p}\s+([^\s.,;]+(?:\s+[^\s.,;]+)*)`. -/
def p2At (p s : List Char) : Option (List Char) :=
  (pLit (str "con") s).bind fun a => (pWs1 a).bind fun b =>
    (pLit p b).bind fun c => (pWs1 c).bind fun d => (multiTok d).map (·.1)

/-- Pattern 3: `para\s+{p}\s+([^\s.,;]+(?:\s+[^\s.,;]+)*)`. -/
def p3At (p s : List Char) : Option (List Char) :=
  (pLit (str "para") s).bind fun a => (pWs1 a).bind fun b =>
    (pLit p b).bind fun c => (pWs1 c).bind fun d => (multiTok d).map (·.1)

/-- Pattern 4: `{p}\s+([^\s.,;]+)`. -/
def p4At (p s : List Char) : Option (List Char) :=
  (pLit p s).bind fun a => (pWs1 a).bind fun b => (pTok b).map (·.1)

/-- Pattern 5: `([^\s.,;]+)\s+{p}`. -/
def p5At (p s : List Char) : Option (List Char) :=
  (pTok s).bind fun tr => (pWs1 tr.2).bind fun r2 => (pLit p r2).map fun _ => tr.1

/-- Model of `IAInterpreterService.findParameterValue`: the five hard-coded
patterns in order, built over `paramName.toLowerCase()`, searched
case-insensitively in the raw follow-up text; the winning capture is
trimmed.  The `type` argument is accepted and ignored, as in the source. -/
def findParameterValue (text paramName type_ : List Char) : Option (List Char) :=
  let p := lower paramName
  match scanSuffixes (p1At p) text with
  | some v => some (jsTrim v)
  | none =>
    match scanSuffixes (p2At p) text with
    | some v => some (jsTrim v)
    | none =>
      match scanSuffixes (p3At p) text with
      | some v => some (jsTrim v)
      | none =>
        match scanSuffixes (p4At p) text with
        | some v => some (jsTrim v)
        | none =>
          match scanSuffixes (p5At p) text with
          | some v => some (jsTrim v)
          | none => none

/-- Model of `value === undefined || value === null || value === "" || value === "?"`. -/
def isMissingValue : JValue → Bool
  | .jUndef => true
  | .jNull => true
  | .jStr s => s.isEmpty || s == str "?"
  | _ => false

/-- One entry of the `missingParams` lists (`{param, type, description}`). -/
structure MissingParam where
  param : List Char
  type : List Char
  description : List Char
deriving DecidableEq

/-- Model of `guessParameterType`. -/
def guessParameterType (paramName : List Char) : List Char :=
  let p := lower paramName
  if hasSubstr p (str "id") then str "ID"
  else if hasSubstr p (str "fecha") || hasSubstr p (str "date") then str "FECHA"
  else if hasSubstr p (str "cliente") || hasSubstr p (str "customer") then
    str "CLIENTE"
  else if hasSubstr p (str "cantidad") || hasSubstr p (str "quantity") then
    str "NUMERO"
  else if hasSubstr p (str "monto") || hasSubstr p (str "amount") ||
      hasSubstr p (str "total") then str "MONTO"
  else str "TEXTO"

/-- Model of `getParameterDescription` (accents transliterated). -/
def getParameterDescription (paramName : List Char) : List Char :=
  let p := lower paramName
  if hasSubstr p (str "id") then str "el identificador unico"
  else if hasSubstr p (str "fecha") || hasSubstr p (str "date") then
    str "la fecha (YYYY-MM-DD)"
  else if hasSubstr p (str "cliente") then str "el nombre o codigo del cliente"
  else if hasSubstr p (str "cantidad") then str "la cantidad"
  else if hasSubstr p (str "monto") then str "el monto"
  else paramName

/-- Model of `IAInterpreterService.checkMissingParameters`: the payload entries
whose value is `undefined`, `null`, `""` or `"?"`, in payload order. -/
def checkMissingParameters (result : IAResult) : List MissingParam :=
  (result.payload.filter (fun kv => isMissingValue kv.2)).map
    (fun kv => ⟨kv.1, guessParameterType kv.1, getParameterDescription kv.1⟩)

/-- Model of `generateParameterRequestMessage`. -/
def generateParameterRequestMessage (missingParams : List MissingParam)
    (result : IAResult) : List Char :=
  match missingParams with
  | [param] =>
    str "Para " ++ lower result.action ++ str " " ++ lower result.module ++
      str ", necesito " ++ param.description ++ str "."
  | _ =>
    str "Para " ++ lower result.action ++ str " " ++ lower result.module ++
      str ", necesito: " ++
      List.intercalate (str ", ") (missingParams.map (·.description)) ++ str "."

/-- Model of `extractParametersFromMessage`. -/
def extractParametersFromMessage (message : List Char)
    (missingParams : List MissingParam) : List (List Char × List Char) :=
  missingParams.foldl (fun acc param =>
    match findParameterValue message param.param param.type with
    | some v => if v.isEmpty then acc else acc ++ [(param.param, v)]
    | none => acc) []

/-- JS `obj[key] = v`: update the existing key in place, else append. -/
def assocSet (k : List Char) (v : JValue) :
    List (List Char × JValue) → List (List Char × JValue)
  | [] => [(k, v)]
  | (k0, v0) :: t =>
    if k0 == k then (k0, v) :: t else (k0, v0) :: assocSet k v t

/-- Model of `updatePayload` (shallow spread, then assign each non-empty value). -/
def updatePayload (result : IAResult)
    (newParams : List (List Char × List Char)) : IAResult :=
  { result with
    payload := newParams.foldl (fun p kv =>
      if kv.2.isEmpty then p else assocSet kv.1 (.jStr kv.2) p) result.payload }

/-- One pending session (`PendingRequest`); `context` is kept opaque. -/
structure PendingRequest where
  originalResult : IAResult
  missingParams : List MissingParam
  context : List Char
  timestamp : Int

/-- The `pendingSessions` map, as an insertion-ordered association list. -/
abbrev Store := List (List Char × PendingRequest)

def storeGet (sid : List Char) (store : Store) : Option PendingRequest :=
  alookup sid store

/-- JS `Map.set`. -/
def storeSet (sid : List Char) (pr : PendingRequest) : Store → Store
  | [] => [(sid, pr)]
  | (k, v) :: t => if k == sid then (k, pr) :: t else (k, v) :: storeSet sid pr t

/-- JS `Map.delete`. -/
def storeDelete (sid : List Char) (store : Store) : Store :=
  store.filter (fun e => !(e.1 == sid))

/-- Model of `SESSION_TIMEOUT = 15 * 60 * 1000` (ms). -/
def SESSION_TIMEOUT : Int := 15 * 60 * 1000

/-- Model of `cleanupExpiredSessions`, parameterised by `Date.now()`. -/
def cleanupExpiredSessions (now : Int) (store : Store) : Store :=
  store.filter (fun e => decide (now - e.2.timestamp ≤ SESSION_TIMEOUT))

/-- Result of `processFollowUp` (before `interpret` re-attaches the id). -/
inductive FollowUpResult where
  | needs (params : List MissingParam) (message : List Char)
  | done (r : IAResult)

/-- Model of `IAInterpreterService.processFollowUp`. -/
def processFollowUp (message : List Char) (pendingRequest : PendingRequest)
    (sessionId : List Char) (store : Store) (now : Int) :
    FollowUpResult × Store :=
  let extractedParams :=
    extractParametersFromMessage message pendingRequest.missingParams
  let updatedResult := updatePayload pendingRequest.originalResult extractedParams
  let remainingMissingParams := checkMissingParameters updatedResult
  if remainingMissingParams.isEmpty then
    (.done updatedResult, storeDelete sessionId store)
  else
    (.needs remainingMissingParams
        (generateParameterRequestMessage remainingMissingParams updatedResult),
      storeSet sessionId
        ⟨updatedResult, remainingMissingParams, pendingRequest.context, now⟩ store)

/-- The two response shapes of `IAInterpreterService.interpret`. -/
inductive InterpretOutput where
  | resolved (r : IAResult)
  | needsParameters (params : List MissingParam) (message : List Char)
      (sessionId : List Char)

/-- JS `a || b` on optional strings (empty string is falsy). -/
def jsOrStr (a b : Option (List Char)) : Option (List Char) :=
  match a with
  | some s => if s.isEmpty then b else some s
  | none => b

/-- The no-session path of `IAInterpreterService.interpret` (the body of
its `try` block): run the motor, gate on confidence `0.15`, and open a
session when required parameters are missing.  `activeSessionId` is the
`sessionId || input.sessionId` value of the call. -/
def freshPathSrv (itp : List Char → Except (List Char) IAResult)
    (message ctx : List Char) (activeSessionId : Option (List Char))
    (freshId : List Char) (store : Store) (now : Int) :
    Except (List Char) InterpretOutput × Store :=
  match itp message with
  | .error e => (.error (str "Error al interpretar: " ++ e), store)
  | .ok result =>
    let confidence := result.confidence.getD 0
    if Frac.ble (q 15 100) confidence then
      let missingParams := checkMissingParameters result
      if missingParams.isEmpty then (.ok (.resolved result), store)
      else
        let newSessionId := (jsOrStr activeSessionId none).getD freshId
        (.ok (.needsParameters missingParams
            (generateParameterRequestMessage missingParams result)
            newSessionId),
          storeSet newSessionId ⟨result, missingParams, ctx, now⟩ store)
    else
      (.error (str "Error al interpretar: Confianza insuficiente"), store)

/-- Model of `IAInterpreterService.interpret`.  Parameters standing for ambient
state of the method: `itp` is `this.interpreter.interpret` applied to the
fixed `modulosDisponibles`/`context.erp`; `freshId` is the value
`generateSessionId()` would produce; `now` is `Date.now()`.  The numeric
rendering `confidence.toFixed(2)` inside the insufficient-confidence
message is elided. -/
def interpretSrv (itp : List Char → Except (List Char) IAResult)
    (message : List Char) (ctx : List Char)
    (sessionIdParam inputSessionId : Option (List Char))
    (freshId : List Char) (store : Store) (now : Int) :
    Except (List Char) InterpretOutput × Store :=
  match jsOrStr sessionIdParam inputSessionId with
  | some sid =>
    match storeGet sid store with
    | some pendingRequest =>
      match processFollowUp message pendingRequest sid store now with
      | (.needs ps m, store') => (.ok (.needsParameters ps m sid), store')
      | (.done r, store') => (.ok (.resolved r), store')
    | none => freshPathSrv itp message ctx (some sid) freshId store now
  | none => freshPathSrv itp message ctx none freshId store now

/-- The session stores reachable from a fresh service: some sequence of
`interpret` calls (any interpreter results, messages, ids, times) and
periodic `cleanupExpiredSessions` sweeps, starting from the empty map. -/
inductive Reachable : Store → Prop
  | empty : Reachable []
  | step (itp : List Char → Except (List Char) IAResult)
      (message ctx : List Char) (sidP sidI : Option (List Char))
      (freshId : List Char) (now : Int) {store : Store} :
      Reachable store →
      Reachable (interpretSrv itp message ctx sidP sidI freshId store now).2
  | sweep (now : Int) {store : Store} : Reachable store →
      Reachable (cleanupExpiredSessions now store)

/-! ## `IAOutputService.generate` (permission gate) -/

/-- Depth-bounded stand-in for `JSON.stringify` on payload objects
(string escaping elided; no claim inspects the rendered text). -/
def renderJ : Nat → JValue → List Char
  | 0, _ => []
  | fuel + 1, v =>
    match v with
    | .jUndef => str "undefined"
    | .jNull => str "null"
    | .jStr s => str "\"" ++ s ++ str "\""
    | .jInt n => (toString n).data
    | .jBool b => if b then str "true" else str "false"
    | .jObj fields =>
      str "\x7b" ++
        List.intercalate (str ",") (fields.map (fun kv =>
          str "\"" ++ kv.1 ++ str "\":" ++ renderJ fuel kv.2)) ++ str "\x7d"

def jsonStringify (p : List (List Char × JValue)) : List Char :=
  renderJ 3 (.jObj p)

/-- The three response shapes of `IAOutputService.generate`. -/
inductive GenerateResult where
  | needsParameters (params : List MissingParam) (message sessionId : List Char)
  | errorOut (error : List Char)
  | success (preview : List (List Char × JValue)) (curl : List Char)

/-- The resolved-result branch of `IAOutputService.generate`: rejects
results whose module or action is outside the caller's permissions, and
otherwise renders the preview and a `curl` command. -/
def generateResolved (r : IAResult) (permisos : Permisos) : GenerateResult :=
  if !(permisos.modulos.contains r.module) then
    .errorOut (str "PERMISO_MODULO_DENEGADO")
  else if !(permisos.acciones.contains r.action) then
    .errorOut (str "PERMISO_ACCION_DENEGADO")
  else
    let payloadString := jsonStringify r.payload
    let curlCommand :=
      if r.method == str "GET" then str "curl \"" ++ r.endpoint ++ str "\""
      else
        str "curl -X " ++ r.method ++
          str " -H \"Content-Type: application/json\" -d '" ++
          payloadString ++ str "' \"" ++ r.endpoint ++ str "\""
    .success r.preview curlCommand

/-- Model of `IAOutputService.generate`: forwards `needsParameters` responses and
permission-checks resolved results. -/
def generate (output : InterpretOutput) (permisos : Permisos) : GenerateResult :=
  match output with
  | .needsParameters ps m sid => .needsParameters ps m sid
  | .resolved r => generateResolved r permisos

/-! ## Startup validation (`ConfigLoader.validateConfig`, fallback loading)

JS-level configuration in which each section may be absent (`none`), to
express the truthiness checks of `validateConfig`. -/

structure SettingsJS where
  umbralMinimoConfianza : Option Frac

structure NormalizacionJS where
  correccionesOrtograficas : Option (List (List Char × List Char))
  eliminarPalabras : Option (List (List Char))
  palabrasVacias : Option (List (List Char))

structure VocabularioJS where
  modulos : Option (List (List Char × ModuloVocab))
  acciones : Option (List (List Char × AccionVocab))

structure PatronesJS where
  detectarAccion : Option (List (List Char × List (List Char → Bool)))
  detectarModulo : Option (List (List Char × List (List Char → Bool)))
  extraerParametros :
    Option (List (List Char × List (List Char → Option (List Char))))

structure PuntuacionJS where
  modulo : Option PuntuacionModulo
  accion : Option PuntuacionAccion

structure DefaultsJS where
  moduloPorDefecto : Option (List Char)
  accionPorDefecto : Option (List Char)

structure ConfigMappingJS where
  version : Option (List Char)
  settings : Option SettingsJS
  normalizacion : Option NormalizacionJS
  vocabulario : Option VocabularioJS
  patrones : Option PatronesJS
  puntuacion : Option PuntuacionJS
  defaults : Option DefaultsJS

/-- JS falsiness of an optional string (`undefined` or `""`). -/
def falsyStr : Option (List Char) → Bool
  | none => true
  | some s => s.isEmpty

/-- JS falsiness of an optional number (`undefined` or `0`). -/
def falsyNum : Option Frac → Bool
  | none => true
  | some x => Frac.beq x 0

/-- Model of `ConfigLoader.validateConfig` (the `constructor` calls this; a failed
check throws, modelled as `.error` with the transliterated message). -/
def validateConfig (config : ConfigMappingJS) : Except (List Char) Unit :=
  if falsyStr config.version then
    .error (str "Configuracion debe tener version")
  else if falsyNum (config.settings.bind (·.umbralMinimoConfianza)) then
    .error (str "Configuracion debe tener umbralMinimoConfianza")
  else if (config.vocabulario.map (·.modulos)).getD none |>.isNone then
    .error (str "Configuracion debe tener vocabulario.modulos")
  else if (config.vocabulario.map (·.acciones)).getD none |>.isNone then
    .error (str "Configuracion debe tener vocabulario.acciones")
  else if (config.puntuacion.map (·.modulo)).getD none |>.isNone then
    .error (str "Configuracion debe tener puntuacion.modulo")
  else if (config.puntuacion.map (·.accion)).getD none |>.isNone then
    .error (str "Configuracion debe tener puntuacion.accion")
  else .ok ()

/-- A constructed `ConfigLoader` (holds its validated config). -/
structure ConfigLoaderJS where
  config : ConfigMappingJS

/-- Model of `new ConfigLoader(config)`: validate, then hold the config. -/
def mkConfigLoader (config : ConfigMappingJS) : Except (List Char) ConfigLoaderJS :=
  match validateConfig config with
  | .error e => .error e
  | .ok _ => .ok ⟨config⟩

/-- Model of `IALocalService.createFallbackConfig` (the hard-coded substitute). -/
def fallbackConfigJS : ConfigMappingJS :=
  { version := some (str "1.0.0-fallback")
    settings := some ⟨some (q 2 10)⟩
    normalizacion := some ⟨some [], some [], some []⟩
    vocabulario := some ⟨some [], some []⟩
    patrones := some ⟨some [], some [], some []⟩
    puntuacion := some ⟨some ⟨Frac.ofInt 1, Frac.ofInt 1, q 5 10, q 2 10, q 5 10⟩,
      some ⟨Frac.ofInt 1, Frac.ofInt 1, q 5 10, q 5 10, q 5 10⟩⟩
    defaults := some ⟨some (str "VENTAS"), some (str "READ")⟩ }

def createFallbackConfig : ConfigLoaderJS := ⟨fallbackConfigJS⟩

/-- Model of `IALocalService.loadConfigFromFile`: `fileContent` is the parsed
`config-mapping.json` (`none` = unreadable/unparsable).  Any throw —
including a `validateConfig` failure inside `new ConfigLoader` — is
caught and replaced by the fallback configuration. -/
def loadConfigFromFile (fileContent : Option ConfigMappingJS) : ConfigLoaderJS :=
  match fileContent with
  | none => createFallbackConfig
  | some cfg =>
    match mkConfigLoader cfg with
    | .ok loader => loader
    | .error _ => createFallbackConfig

/-- Model of `new IALocalService(config?)`: an explicit config is validated and a
failure propagates; otherwise the file path with its fallback is used. -/
def mkIALocalService (explicitCfg : Option ConfigMappingJS)
    (fileContent : Option ConfigMappingJS) : Except (List Char) ConfigLoaderJS :=
  match explicitCfg with
  | some c => mkConfigLoader c
  | none => .ok (loadConfigFromFile fileContent)

/-- Model of `createIALocalService(configPath?)`: `pathContent` is the parsed file
at the explicit path (`none` = no path / unreadable); any throw in the
`try` block — including config validation — falls back to
`new IALocalService()`. -/
def createIALocalService (pathContent : Option ConfigMappingJS)
    (fileContent : Option ConfigMappingJS) : ConfigLoaderJS :=
  match pathContent with
  | some c =>
    match mkIALocalService (some c) fileContent with
    | .ok loader => loader
    | .error _ => loadConfigFromFile fileContent
  | none => loadConfigFromFile fileContent

/-! ## DeepSeek payload builder fragment (`deepseek-raw.service.ts`)

Only the local extraction helpers are embedded
(`construirPayloadDesdeMensaje`, `extraerValorDeMensaje`); the network
call around them is out of scope. -/

/-- Model of `[a-zA-ZáéíóúÁÉÍÓÚñÑ]`. -/
def isSpanishLetter (c : Char) : Bool :=
  ('a' ≤ c && c ≤ 'z') || ('A' ≤ c && c ≤ 'Z') ||
    [
      'á', 'é', 'í', 'ó', 'ú', 'Á', 'É', 'Í', 'Ó', 'Ú', 'ñ', 'Ñ'
    ].contains c

/-- Model of `[a-zA-ZáéíóúÁÉÍÓÚñÑ\s]`. -/
def clsLetterWs (c : Char) : Bool := isSpanishLetter c || isWsChar c

/-- Model of `[a-zA-ZáéíóúÁÉÍÓÚñÑ0-9\s]`. -/
def clsLetterDigitWs (c : Char) : Bool :=
  clsLetterWs c || ('0' ≤ c && c ≤ '9')

/-- Model of `/{lit}\s+([cls]+)/i` searched anywhere; returns the raw capture. -/
def dsCapture (lit : List Char) (cls : Char → Bool) (mensaje : List Char) :
    Option (List Char) :=
  scanSuffixes (fun s =>
    (pLit lit s).bind fun r1 => (pWs1 r1).bind fun r2 =>
      let cap := r2.takeWhile cls
      if cap.isEmpty then none else some cap) mensaje

/-- Model of `/con\s+{campo}\s+([cls]+)/i`. -/
def dsCaptureCon (campo : List Char) (cls : Char → Bool) (mensaje : List Char) :
    Option (List Char) :=
  scanSuffixes (fun s =>
    (pLit (str "con") s).bind fun a => (pWs1 a).bind fun b =>
      (pLit campo b).bind fun c => (pWs1 c).bind fun d =>
        let cap := d.takeWhile cls
        if cap.isEmpty then none else some cap) mensaje

/-- Backtracking for `/([cls]+)\s+{campo}/i` at one position: greedy
capture of `k` characters, shrunk until `\s+{campo}` matches. -/
def g2Back (campo : List Char) (s : List Char) : Nat → Option (List Char)
  | 0 => none
  | k + 1 =>
    match (pWs1 (s.drop (k + 1))).bind (fun r => pLit campo r) with
    | some _ => some (s.take (k + 1))
    | none => g2Back campo s k

/-- Model of `/([cls]+)\s+{campo}/i` searched anywhere. -/
def dsCaptureBefore (campo : List Char) (cls : Char → Bool)
    (mensaje : List Char) : Option (List Char) :=
  scanSuffixes (fun s =>
    let run := s.takeWhile cls
    if run.isEmpty then none else g2Back campo s run.length) mensaje

/-- Model of `/:?\s*([cls]+)$/i` (the class contains `\s`, so this matches at the
first position from which the rest of the string is all in the class;
greedy `\s*` then backtracks just enough to feed the group). -/
def dsCaptureTail (cls : Char → Bool) (mensaje : List Char) :
    Option (List Char) :=
  scanSuffixes (fun s =>
    let rest := if s.head? == some ':' then s.drop 1 else s
    if rest.isEmpty || !(rest.all cls) then none
    else
      let n := wsRunLen rest
      if n < rest.length then some (rest.drop n) else some (rest.drop (n - 1)))
    mensaje

/-- Model of `/([cls]+)$/i`: the earliest suffix lying entirely in the class. -/
def dsCaptureTailPlain (cls : Char → Bool) (mensaje : List Char) :
    Option (List Char) :=
  scanSuffixes (fun s =>
    if !s.isEmpty && s.all cls then some s else none) mensaje

/-- JS `String.prototype.replace` with a string pattern (first occurrence
only). -/
def replaceFirst (pat repl : List Char) : List Char → List Char
  | [] => if pat.isEmpty then repl else []
  | c :: t =>
    if pat.isPrefixOf (c :: t) then repl ++ (c :: t).drop pat.length
    else c :: replaceFirst pat repl t

/-- First capture among the description-field patterns
(`apellido|paciente|cliente|nombre|medico|usuario|con|buscar|listar`). -/
def descPatternsCapture (mensaje : List Char) : Option (List Char) :=
  let try_ := fun (w : String) => dsCapture (str w) clsLetterWs mensaje
  (try_ "apellido").orElse fun _ =>
    (try_ "paciente").orElse fun _ =>
      (try_ "cliente").orElse fun _ =>
        (try_ "nombre").orElse fun _ =>
          (try_ "medico").orElse fun _ =>
            (try_ "usuario").orElse fun _ =>
              (try_ "con").orElse fun _ =>
                (try_ "buscar").orElse fun _ => try_ "listar"

/-- Model of `DeepSeekRawService.extraerValorDeMensaje` (the variant with the
description-field fast path followed by the general patterns). -/
def extraerValorDeMensaje (mensaje nombreCampo : List Char) :
    Option (List Char) :=
  let descBranch :=
    if nombreCampo == str "T_Descripcion" || nombreCampo == str "str_nombres" ||
        hasSubstr nombreCampo (str "descripcion") then
      (descPatternsCapture mensaje).map jsTrim
    else none
  match descBranch with
  | some v => some v
  | none =>
    let campoLower := replaceFirst (str "_") []
      (replaceFirst (str "str_") [] (replaceFirst (str "t_") []
        (lower nombreCampo)))
    let general :=
      (dsCapture campoLower clsLetterDigitWs mensaje).orElse fun _ =>
        (dsCaptureBefore campoLower clsLetterDigitWs mensaje).orElse fun _ =>
          (dsCaptureCon campoLower clsLetterDigitWs mensaje).orElse fun _ =>
            (dsCapture (str "de") clsLetterDigitWs mensaje).orElse fun _ =>
              dsCaptureTail clsLetterDigitWs mensaje
    general.map jsTrim

/-- One declared property of a nested-object endpoint parameter. -/
structure DSProp where
  nombre : List Char
  tipo : List Char

/-- One declared endpoint parameter (possibly a one-level nested object). -/
structure DSParam where
  nombre : List Char
  tipo : List Char
  esObjeto : Bool
  propiedades : List DSProp

/-- The endpoint fields read by `construirPayloadDesdeMensaje`. -/
structure DSEndpoint where
  nombreReferencia : List Char
  parametros : List DSParam

/-- Model of `valorExtraido ? parseInt(valorExtraido, 10) : 0`, `isNaN → 0`. -/
def dsIntVal (v : Option (List Char)) : Int :=
  match v with
  | some x => if x.isEmpty then 0 else (jsParseInt x).getD 0
  | none => 0

/-- Is `payload.oEntity.T_Descripcion` present and `=== ''`? -/
def oEntityDescEmpty (payload : List (List Char × JValue)) : Bool :=
  match alookup (str "oEntity") payload with
  | some (.jObj fields) =>
    match alookup (str "T_Descripcion") fields with
    | some (.jStr s) => s.isEmpty
    | _ => false
  | _ => false

/-- Model of `payload.oEntity.T_Descripcion = v`. -/
def setOEntityDesc (payload : List (List Char × JValue)) (v : List Char) :
    List (List Char × JValue) :=
  payload.map (fun kv =>
    if kv.1 == str "oEntity" then
      match kv.2 with
      | .jObj fields =>
        (kv.1, .jObj (assocSet (str "T_Descripcion") (.jStr v) fields))
      | other => (kv.1, other)
    else kv)

/-- Model of `DeepSeekRawService.construirPayloadDesdeMensaje`: nested string
properties are extracted from the raw message and upper-cased; string
defaults are `''`, int `0`, boolean `false`; plus the hard-coded
`Listar Pacientes` fallback extraction. -/
def construirPayloadDesdeMensaje (endpoint : DSEndpoint) (mensaje : List Char) :
    List (List Char × JValue) :=
  let propEntry := fun (prop : DSProp) =>
    let valorExtraido := extraerValorDeMensaje mensaje prop.nombre
    if prop.tipo == str "string" then
      some (prop.nombre,
        JValue.jStr (match valorExtraido with | some x => upper x | none => []))
    else if prop.tipo == str "int" then
      some (prop.nombre, JValue.jInt (dsIntVal valorExtraido))
    else if prop.tipo == str "boolean" then
      some (prop.nombre, JValue.jBool false)
    else none
  let paramEntry := fun (param : DSParam) =>
    if param.esObjeto then
      some (param.nombre, JValue.jObj (param.propiedades.filterMap propEntry))
    else if param.tipo == str "string" then
      some (param.nombre,
        JValue.jStr ((extraerValorDeMensaje mensaje param.nombre).getD []))
    else if param.tipo == str "int" then
      some (param.nombre,
        JValue.jInt (dsIntVal (extraerValorDeMensaje mensaje param.nombre)))
    else if param.tipo == str "boolean" then
      some (param.nombre, JValue.jBool false)
    else none
  let payload := endpoint.parametros.filterMap paramEntry
  if endpoint.nombreReferencia == str "Listar Pacientes" &&
      oEntityDescEmpty payload then
    let m :=
      (dsCapture (str "apellido") clsLetterWs mensaje).orElse fun _ =>
        (dsCapture (str "paciente") clsLetterWs mensaje).orElse fun _ =>
          (dsCapture (str "con") clsLetterWs mensaje).orElse fun _ =>
            dsCaptureTailPlain clsLetterWs mensaje
    match m with
    | some v => setOEntityDesc payload (upper (jsTrim v))
    | none => payload
  else payload

/-! ## Concrete scenario data

`config-mapping.json` and the endpoint catalog are data files outside the
sources; the configuration below is modelled from the spec's vocabulary
description and scenarios (modules `VENTAS`/`CLINICO`, actions
`CREATE`/`READ`, extraction templates `nombre\s+([^\s.,;]+)`,
`monto\s+([^\s.,;]+)` and `paciente\s+([a-záéíóúñ\s]+)`), with the
weight tables of `createFallbackConfig` (which are in the source). -/

def cfgDemo : ConfigMapping :=
  { umbralMinimoConfianza := q 2 10
    correccionesOrtograficas := []
    eliminarPalabras := []
    palabrasVacias := []
    modulos :=
      [(str "VENTAS", ⟨[str "cliente", str "venta"], []⟩),
       (str "CLINICO", ⟨[str "paciente", str "pacientes"], []⟩)]
    acciones :=
      [(str "CREATE", ⟨[str "crear"], [], []⟩),
       (str "READ", ⟨[str "buscar", str "listar"], [], []⟩)]
    detectarAccion := []
    detectarModulo := []
    extraerParametros :=
      [(str "nombre", [scanSuffixes (p4At (str "nombre"))]),
       (str "monto", [scanSuffixes (p4At (str "monto"))]),
       (str "descripcion", [dsCapture (str "paciente") clsLetterWs])]
    puntuacionModulo := ⟨Frac.ofInt 1, Frac.ofInt 1, q 5 10, q 2 10, q 5 10⟩
    puntuacionAccion := ⟨Frac.ofInt 1, Frac.ofInt 1, q 5 10, q 5 10, q 5 10⟩
    moduloPorDefecto := str "VENTAS"
    accionPorDefecto := str "READ" }

def epCrearCliente : ERPConfigEndpoint :=
  ⟨str "crear cliente", str "crear un cliente nuevo", str "/clientes/crear",
    str "POST", [(str "nombre", .jStr []), (str "monto", .jStr [])],
    str "json"⟩

def epBuscarPaciente : ERPConfigEndpoint :=
  ⟨str "buscar paciente", str "buscar pacientes por nombre",
    str "/pacientes/buscar", str "GET", [(str "descripcion", .jStr [])],
    str "json"⟩

/-- The endpoint catalog lookup for the scenarios. -/
def endpointsForDemo (m a : List Char) : List ERPConfigEndpoint :=
  if m == str "VENTAS" && a == str "CREATE" then [epCrearCliente]
  else if m == str "CLINICO" && a == str "READ" then [epBuscarPaciente]
  else []

def permisosDemo : Permisos :=
  ⟨[str "VENTAS", str "CLINICO"], [str "CREATE", str "READ"]⟩

/-- The interpreter motor of the scenarios: `LocalMotor.interpret` with
the demo configuration, catalog and permissions. -/
def itpDemo (message : List Char) : Except (List Char) IAResult :=
  interpretLocal cfgDemo endpointsForDemo message permisosDemo
    permisosDemo.modulos

/-! ## Basic lemmas about characters and scanners -/

theorem char_toNat_ofNat (n : Nat) (h : n < 0xd800) : (Char.ofNat n).toNat = n := by
  simp only [Char.ofNat, Nat.isValidChar]
  rw [dif_pos (Or.inl h)]
  simp [Char.toNat, Char.ofNatAux, UInt32.toNat, UInt32.ofNat']

theorem char_eq_of_toNat {a b : Char} (h : a.toNat = b.toNat) : a = b :=
  Char.ext (UInt32.ext h)

theorem jsToLower_toNat (c : Char) :
    (jsToLower c).toNat =
      if 65 ≤ c.toNat ∧ c.toNat ≤ 90 then c.toNat + 32 else c.toNat := by
  unfold jsToLower
  split_ifs with h
  · exact char_toNat_ofNat _ (by omega)
  · rfl

theorem jsToLower_idem (c : Char) : jsToLower (jsToLower c) = jsToLower c := by
  by_cases h : 65 ≤ c.toNat ∧ c.toNat ≤ 90
  · have h1 : (jsToLower c).toNat = c.toNat + 32 := by rw [jsToLower_toNat, if_pos h]
    apply char_eq_of_toNat
    rw [jsToLower_toNat, h1, if_neg (by omega)]
  · have h1 : (jsToLower c).toNat = c.toNat := by rw [jsToLower_toNat, if_neg h]
    have h2 : jsToLower c = c := char_eq_of_toNat h1
    rw [h2]
    exact h2

theorem lower_idem (s : List Char) : lower (lower s) = lower s := by
  unfold lower
  rw [List.map_map]
  exact List.map_congr_left (fun c _ => jsToLower_idem c)

theorem isWsChar_iff (c : Char) :
    isWsChar c = true ↔
      (c.toNat = 32 ∨ c.toNat = 9 ∨ c.toNat = 10 ∨ c.toNat = 13) := by
  have conv : ∀ (d : Char), (c == d) = true ↔ c.toNat = d.toNat := by
    intro d
    constructor
    · intro h
      rw [show c = d from beq_iff_eq.mp h]
    · intro h
      exact beq_iff_eq.mpr (char_eq_of_toNat h)
  unfold isWsChar
  simp only [Bool.or_eq_true, conv]
  simp only [show (' ').toNat = 32 from rfl, show ('\t').toNat = 9 from rfl,
    show ('\n').toNat = 10 from rfl, show ('\x0d').toNat = 13 from rfl]
  tauto

theorem isWsChar_jsToLower (c : Char) : isWsChar (jsToLower c) = isWsChar c := by
  by_cases h : 65 ≤ c.toNat ∧ c.toNat ≤ 90
  · have h1 : (jsToLower c).toNat = c.toNat + 32 := by rw [jsToLower_toNat, if_pos h]
    have e1 : isWsChar (jsToLower c) = false := by
      rw [← Bool.not_eq_true, isWsChar_iff, h1]
      omega
    have e2 : isWsChar c = false := by
      rw [← Bool.not_eq_true, isWsChar_iff]
      omega
    rw [e1, e2]
  · have h1 : (jsToLower c).toNat = c.toNat := by rw [jsToLower_toNat, if_neg h]
    rw [char_eq_of_toNat h1]

theorem frac_toRat_zero : Frac.toRat 0 = 0 := by
  show Frac.toRat (Frac.ofInt 0) = 0
  rw [Frac.toRat_ofInt]
  norm_num

theorem toRat_foldl_add (l : List Frac) (a : Frac) :
    Frac.toRat (l.foldl (· + ·) a) = Frac.toRat a + (l.map Frac.toRat).sum := by
  induction l generalizing a with
  | nil => simp
  | cons x t ih =>
    simp only [List.foldl_cons, List.map_cons, List.sum_cons]
    rw [ih, Frac.toRat_add]
    ring

theorem toRat_sumF {α : Type} (l : List α) (f : α → Frac) :
    Frac.toRat (ConfigLoader.sumF l f) =
      (l.map (fun a => Frac.toRat (f a))).sum := by
  unfold ConfigLoader.sumF
  rw [toRat_foldl_add]
  simp only [List.map_map, frac_toRat_zero, zero_add]
  rfl

theorem sumF_mono {α : Type} (l : List α) (f g : α → Frac)
    (h : ∀ a ∈ l, Frac.toRat (f a) ≤ Frac.toRat (g a)) :
    Frac.toRat (ConfigLoader.sumF l f) ≤ Frac.toRat (ConfigLoader.sumF l g) := by
  rw [toRat_sumF, toRat_sumF]
  exact List.sum_le_sum h

theorem pickBest_spec {α : Type} (score : α → Frac) (x : α) (l : List α) :
    ∃ b, ConfigLoader.pickBestBy score (x :: l) = some b ∧ b ∈ x :: l ∧
      ∀ y ∈ x :: l, Frac.ble (score y) (score b) = true := by
  induction l generalizing x with
  | nil =>
    refine ⟨x, rfl, List.mem_singleton.mpr rfl, ?_⟩
    intro y hy
    rw [List.mem_singleton.mp hy]
    exact (Frac.ble_iff _ _).mpr le_rfl
  | cons z t ih =>
    obtain ⟨b, hb, hmem, hmax⟩ := ih (if Frac.blt (score x) (score z) then z else x)
    refine ⟨b, ?_, ?_, ?_⟩
    · unfold ConfigLoader.pickBestBy at hb ⊢
      simpa using hb
    · rcases List.mem_cons.mp hmem with h | h
      · by_cases hc : Frac.blt (score x) (score z) = true
        · rw [if_pos hc] at h
          exact h ▸ List.mem_cons_of_mem _ (List.mem_cons_self _ _)
        · rw [if_neg hc] at h
          exact h ▸ List.mem_cons_self _ _
      · exact List.mem_cons_of_mem _ (List.mem_cons_of_mem _ h)
    · intro y hy
      have hstep : ∀ w, w = (if Frac.blt (score x) (score z) then z else x) →
          Frac.toRat (score x) ≤ Frac.toRat (score w) ∧
          Frac.toRat (score z) ≤ Frac.toRat (score w) := by
        intro w hw
        by_cases hc : Frac.blt (score x) (score z) = true
        · rw [if_pos hc] at hw
          subst hw
          exact ⟨((Frac.blt_iff _ _).mp hc).le, le_rfl⟩
        · rw [if_neg hc] at hw
          subst hw
          exact ⟨le_rfl, (Frac.blt_false_iff _ _).mp (Bool.not_eq_true _ ▸ hc)⟩
      obtain ⟨hx, hz⟩ := hstep _ rfl
      have hbmax : Frac.toRat
          (score (if Frac.blt (score x) (score z) then z else x)) ≤
            Frac.toRat (score b) :=
        (Frac.ble_iff _ _).mp (hmax _ (List.mem_cons_self _ _))
      rcases List.mem_cons.mp hy with h | h
      · exact (Frac.ble_iff _ _).mpr (h ▸ le_trans hx hbmax)
      · rcases List.mem_cons.mp h with h2 | h2
        · exact (Frac.ble_iff _ _).mpr (h2 ▸ le_trans hz hbmax)
        · exact hmax _ (List.mem_cons_of_mem _ h2)

theorem isPrefixOf_true {p s : List Char} :
    p.isPrefixOf s = true ↔ p <+: s := List.isPrefixOf_iff_prefix

theorem hasSubstr_length : ∀ s p : List Char, hasSubstr s p = true →
    p.length ≤ s.length := by
  intro s
  induction s with
  | nil =>
    intro p h
    unfold hasSubstr at h
    split_ifs at h with hp
    simpa using (isPrefixOf_true.mp hp).length_le
  | cons c t ih =>
    intro p h
    unfold hasSubstr at h
    split_ifs at h with hp
    · exact (isPrefixOf_true.mp hp).length_le
    · have := ih p h
      simp only [List.length_cons]
      omega

theorem hasSubstr_append {s p : List Char} (t : List Char)
    (h : hasSubstr s p = true) : hasSubstr (s ++ t) p = true := by
  induction s with
  | nil =>
    unfold hasSubstr at h
    split_ifs at h with hp
    have hpn : p = [] := List.prefix_nil.mp (isPrefixOf_true.mp hp)
    unfold hasSubstr
    rw [if_pos (isPrefixOf_true.mpr (hpn ▸ List.nil_prefix))]
  | cons c r ih =>
    unfold hasSubstr at h
    split_ifs at h with hp
    · have : p.isPrefixOf (c :: r ++ t) = true :=
        isPrefixOf_true.mpr
          ((isPrefixOf_true.mp hp).trans (List.prefix_append _ _))
      unfold hasSubstr
      simp only [List.cons_append] at this ⊢
      rw [if_pos this]
    · unfold hasSubstr
      simp only [List.cons_append]
      split_ifs with hq
      · rfl
      · exact ih h

theorem matchesCIAt_length {p s : List Char} (h : matchesCIAt p s = true) :
    p.length ≤ s.length := by
  unfold matchesCIAt at h
  simpa using (isPrefixOf_true.mp h).length_le

theorem matchesCIAt_append {p s : List Char} (t : List Char)
    (h : matchesCIAt p s = true) : matchesCIAt p (s ++ t) = true := by
  unfold matchesCIAt at h ⊢
  rw [List.map_append]
  exact isPrefixOf_true.mpr
    ((isPrefixOf_true.mp h).trans (List.prefix_append _ _))

theorem tryWordAt_append {p : List Char} (hp : p ≠ []) {prev : Option Char}
    {s : List Char} (x : Char) (hx : isWordChar x = false) (u : List Char)
    (h : tryWordAt p prev s = true) : tryWordAt p prev (s ++ x :: u) = true := by
  unfold tryWordAt at h ⊢
  simp only [Bool.and_eq_true] at h ⊢
  obtain ⟨⟨h1, h2⟩, h3⟩ := h
  have hlen : p.length ≤ s.length := matchesCIAt_length h1
  have hs : s ≠ [] := by
    intro he
    subst he
    simp at hlen
    exact hp hlen
  have htake : (s ++ x :: u).take p.length = s.take p.length :=
    List.take_append_of_le_length hlen
  have hdrop : (s ++ x :: u).drop p.length = s.drop p.length ++ x :: u :=
    List.drop_append_of_le_length hlen
  refine ⟨⟨matchesCIAt_append _ h1, ?_⟩, ?_⟩
  · cases s with
    | nil => exact absurd rfl hs
    | cons a r => simpa using h2
  · rw [htake, hdrop]
    cases hd : s.drop p.length with
    | nil =>
      rw [hd] at h3
      simp only [List.nil_append]
      unfold boundary at h3 ⊢
      simpa [hx] using h3
    | cons b r =>
      rw [hd] at h3
      simpa using h3

theorem wordSearch_length {p : List Char} :
    ∀ (s : List Char) (prev : Option Char), wordSearch p prev s = true →
      p.length ≤ s.length := by
  intro s
  induction s with
  | nil =>
    intro prev h
    unfold wordSearch at h
    simp only [Bool.or_false] at h
    unfold tryWordAt at h
    simp only [Bool.and_eq_true] at h
    simpa using matchesCIAt_length h.1.1
  | cons c t ih =>
    intro prev h
    unfold wordSearch at h
    rcases Bool.or_eq_true_iff.mp h with h1 | h2
    · unfold tryWordAt at h1
      simp only [Bool.and_eq_true] at h1
      exact matchesCIAt_length h1.1.1
    · have := ih (some c) h2
      simp only [List.length_cons]
      omega

theorem wordSearch_append {p : List Char} (hp : p ≠ []) (x : Char)
    (hx : isWordChar x = false) (u : List Char) :
    ∀ (s : List Char) (prev : Option Char), wordSearch p prev s = true →
      wordSearch p prev (s ++ x :: u) = true := by
  intro s
  induction s with
  | nil =>
    intro prev h
    unfold wordSearch at h
    simp only [Bool.or_false] at h
    unfold tryWordAt at h
    simp only [Bool.and_eq_true] at h
    have := matchesCIAt_length h.1.1
    simp at this
    exact absurd this hp
  | cons c t ih =>
    intro prev h
    unfold wordSearch at h
    rcases Bool.or_eq_true_iff.mp h with h1 | h2
    · have := tryWordAt_append hp x hx u h1
      unfold wordSearch
      simp only [List.cons_append] at this ⊢
      rw [this]
      rfl
    · unfold wordSearch
      simp only [List.cons_append]
      rw [ih (some c) h2]
      simp

theorem testWholeWord_append {p s : List Char} (x : Char)
    (hx : isWordChar x = false) (u : List Char)
    (h : testWholeWord p s = true) : testWholeWord p (s ++ x :: u) = true := by
  unfold testWholeWord at h ⊢
  simp only [Bool.and_eq_true] at h ⊢
  have hp : p ≠ [] := by simpa using h.1
  exact ⟨h.1, wordSearch_append hp x hx u s none h.2⟩

theorem testWholeWord_length {p s : List Char} (h : testWholeWord p s = true) :
    p.length ≤ s.length := by
  unfold testWholeWord at h
  simp only [Bool.and_eq_true] at h
  exact wordSearch_length s none h.2

theorem contribKeyword_mono (w : PuntuacionModulo) (T k2 pal : List Char)
    (hne : T ≠ pal)
    (h0e : Frac.ble 0 w.coincidenciaExacta = true)
    (h0p : Frac.ble 0 w.coincidenciaParcial = true)
    (hpc : Frac.ble w.coincidenciaParcial w.coincidenciaPalabraCompleta = true) :
    Frac.toRat (if T = pal then w.coincidenciaExacta
      else if testWholeWord pal T then w.coincidenciaPalabraCompleta
      else if hasSubstr T pal then w.coincidenciaParcial else 0) ≤
    Frac.toRat (if T ++ ' ' :: k2 = pal then w.coincidenciaExacta
      else if testWholeWord pal (T ++ ' ' :: k2) then w.coincidenciaPalabraCompleta
      else if hasSubstr (T ++ ' ' :: k2) pal then w.coincidenciaParcial else 0) := by
  have h0e' : (0 : ℚ) ≤ w.coincidenciaExacta.toRat := by
    have := (Frac.ble_iff _ _).mp h0e
    rwa [frac_toRat_zero] at this
  have h0p' : (0 : ℚ) ≤ w.coincidenciaParcial.toRat := by
    have := (Frac.ble_iff _ _).mp h0p
    rwa [frac_toRat_zero] at this
  have hpc' : w.coincidenciaParcial.toRat ≤ w.coincidenciaPalabraCompleta.toRat :=
    (Frac.ble_iff _ _).mp hpc
  have h0c' : (0 : ℚ) ≤ w.coincidenciaPalabraCompleta.toRat := le_trans h0p' hpc'
  rw [if_neg hne]
  by_cases hw : testWholeWord pal T = true
  · rw [if_pos hw]
    have hlen := testWholeWord_length hw
    have hne2 : T ++ ' ' :: k2 ≠ pal := by
      intro he
      rw [← he] at hlen
      simp at hlen
    rw [if_neg hne2, if_pos (testWholeWord_append ' ' (by decide) k2 hw)]
  · rw [if_neg hw]
    by_cases hs : hasSubstr T pal = true
    · rw [if_pos hs]
      have hlen := hasSubstr_length T pal hs
      have hne2 : T ++ ' ' :: k2 ≠ pal := by
        intro he
        rw [← he] at hlen
        simp at hlen
      rw [if_neg hne2]
      by_cases hw2 : testWholeWord pal (T ++ ' ' :: k2) = true
      · rw [if_pos hw2]
        exact hpc'
      · rw [if_neg hw2, if_pos (hasSubstr_append _ hs)]
    · rw [if_neg hs, frac_toRat_zero]
      split_ifs
      · exact h0e'
      · exact h0c'
      · exact h0p'
      · rw [frac_toRat_zero]

/-! ## Claim C8 -/

/-- C8 (amended): module scoring is monotone under appending one more
occurrence of a module keyword, provided (i) the original text is not
exactly equal to a keyword (the exact-match bonus can otherwise be
downgraded), (ii) every module detection pattern matched by the text
still matches the extended text (anchored patterns can otherwise lose
their bonus), and (iii) the weights satisfy
`0 ≤ coincidenciaExacta`, `0 ≤ coincidenciaParcial ≤
coincidenciaPalabraCompleta` and `0 ≤ palabraRelacionada`. -/
theorem claim_C8_amended (cfg : ConfigMapping) (texto k modulo : List Char)
    (hexact : ∀ p ∈ ConfigLoader.getPalabrasClaveModulo cfg modulo,
      lower texto ≠ lower p)
    (hpat : ∀ pat ∈ ConfigLoader.getPatronesModulo cfg modulo,
      pat (lower texto) = true → pat (lower texto ++ ' ' :: lower k) = true)
    (h0e : Frac.ble 0 cfg.puntuacionModulo.coincidenciaExacta = true)
    (h0p : Frac.ble 0 cfg.puntuacionModulo.coincidenciaParcial = true)
    (hpc : Frac.ble cfg.puntuacionModulo.coincidenciaParcial
      cfg.puntuacionModulo.coincidenciaPalabraCompleta = true)
    (h0r : Frac.ble 0 cfg.puntuacionModulo.palabraRelacionada = true) :
    Frac.ble (ConfigLoader.calcularPuntuacionModulo cfg texto modulo)
      (ConfigLoader.calcularPuntuacionModulo cfg (texto ++ str " " ++ k) modulo)
      = true := by
  have h0p' : (0 : ℚ) ≤ cfg.puntuacionModulo.coincidenciaParcial.toRat := by
    have := (Frac.ble_iff _ _).mp h0p
    rwa [frac_toRat_zero] at this
  have hpc' := (Frac.ble_iff _ _).mp hpc
  have h0c' : (0 : ℚ) ≤ cfg.puntuacionModulo.coincidenciaPalabraCompleta.toRat :=
    le_trans h0p' hpc'
  have h0r' : (0 : ℚ) ≤ cfg.puntuacionModulo.palabraRelacionada.toRat := by
    have := (Frac.ble_iff _ _).mp h0r
    rwa [frac_toRat_zero] at this
  have hlow : lower (texto ++ str " " ++ k) = lower texto ++ ' ' :: lower k := by
    unfold lower str
    simp [List.map_append, List.append_assoc]
    decide
  rw [Frac.ble_iff]
  unfold ConfigLoader.calcularPuntuacionModulo
  simp only []
  rw [hlow]
  simp only [Frac.toRat_add]
  apply add_le_add (add_le_add ?_ ?_) ?_
  · apply sumF_mono
    intro palabra hmem
    exact contribKeyword_mono _ _ _ _ (hexact palabra hmem) h0e h0p hpc
  · apply sumF_mono
    intro pal hmem
    by_cases hw : testWholeWord (lower pal) (lower texto) = true
    · rw [if_pos hw, if_pos (testWholeWord_append ' ' (by decide) _ hw)]
    · rw [if_neg hw, frac_toRat_zero]
      split_ifs
      · exact h0r'
      · rw [frac_toRat_zero]
  · apply sumF_mono
    intro pat hmem
    by_cases hq : pat (lower texto) = true
    · rw [if_pos hq, if_pos (hpat pat hmem hq)]
    · rw [if_neg hq, frac_toRat_zero]
      split_ifs
      · exact h0c'
      · rw [frac_toRat_zero]

/-- Configurations for the C8 counterexample: exact-match weight above
whole-word weight; an anchored detection pattern; partial weight above
whole-word weight. -/
def cfgA : ConfigMapping := { cfgDemo with
  modulos := [(str "VENTAS", ⟨[str "ventas"], []⟩)]
  puntuacionModulo := ⟨Frac.ofInt 2, Frac.ofInt 1, q 5 10, q 2 10, q 5 10⟩ }

def cfgB : ConfigMapping := { cfgDemo with
  modulos := [(str "VENTAS", ⟨[], []⟩)]
  detectarModulo := [(str "VENTAS", [fun t => t == str "ventas"])] }

def cfgC : ConfigMapping := { cfgDemo with
  modulos := [(str "VENTAS", ⟨[str "x"], []⟩)]
  puntuacionModulo := ⟨Frac.ofInt 1, q 5 10, Frac.ofInt 1, q 2 10, q 5 10⟩ }

/-- C8 (counterexample): appending one more occurrence of a matching
keyword strictly lowers `calcularPuntuacionModulo` (a) when the text was
exactly a keyword and `coincidenciaExacta > coincidenciaPalabraCompleta`,
(b) when an anchored detection pattern (here `^ventas$`, modelled by its
match predicate) stops matching, and (c) when a partial match is promoted
to a whole-word match but `coincidenciaParcial >
coincidenciaPalabraCompleta`. -/
theorem claim_C8_counterexample :
    Frac.blt (ConfigLoader.calcularPuntuacionModulo cfgA
        (str "ventas" ++ str " " ++ str "ventas") (str "VENTAS"))
      (ConfigLoader.calcularPuntuacionModulo cfgA (str "ventas")
        (str "VENTAS")) = true ∧
    Frac.blt (ConfigLoader.calcularPuntuacionModulo cfgB
        (str "ventas" ++ str " " ++ str "ventas") (str "VENTAS"))
      (ConfigLoader.calcularPuntuacionModulo cfgB (str "ventas")
        (str "VENTAS")) = true ∧
    Frac.blt (ConfigLoader.calcularPuntuacionModulo cfgC
        (str "ax" ++ str " " ++ str "x") (str "VENTAS"))
      (ConfigLoader.calcularPuntuacionModulo cfgC (str "ax")
        (str "VENTAS")) = true := by
  refine ⟨by decide, by decide, by decide⟩

/-- Witness for `claim_C8_amended` at a concrete configuration and text. -/
theorem claim_C8_witness :
    (∀ p ∈ ConfigLoader.getPalabrasClaveModulo cfgDemo (str "VENTAS"),
      lower (str "crear cliente") ≠ lower p) ∧
    Frac.ble (ConfigLoader.calcularPuntuacionModulo cfgDemo
        (str "crear cliente") (str "VENTAS"))
      (ConfigLoader.calcularPuntuacionModulo cfgDemo
        (str "crear cliente" ++ str " " ++ str "cliente") (str "VENTAS"))
      = true :=
  ⟨by decide,
    claim_C8_amended cfgDemo (str "crear cliente") (str "cliente")
      (str "VENTAS") (by decide) (by decide) (by decide) (by decide)
      (by decide) (by decide)⟩

/-! ## Claim C10 -/

/-- C10: whenever the lowercased message contains any hard-coded
irrelevant word as a substring anywhere (not only as a whole token),
`contienePalabrasIrrelevantesParaERP` fires and the topical-relevance
signal `calcularRelevanciaMensaje` is exactly 0, for every configuration
and every module/action vocabulary. -/
theorem claim_C10 (cfg : ConfigMapping) (texto modulo accion : List Char)
    (h : ∃ w ∈ IALocalService.palabrasIrrelevantesERP,
      hasSubstr (lower texto) w = true) :
    IALocalService.contienePalabrasIrrelevantesParaERP (lower texto) = true ∧
    IALocalService.calcularRelevanciaMensaje cfg texto modulo accion = 0 := by
  have hcont : IALocalService.contienePalabrasIrrelevantesParaERP (lower texto)
      = true := by
    unfold IALocalService.contienePalabrasIrrelevantesParaERP
    obtain ⟨w, hw, hsub⟩ := h
    exact List.any_eq_true.mpr ⟨w, hw, hsub⟩
  refine ⟨hcont, ?_⟩
  unfold IALocalService.calcularRelevanciaMensaje
  simp only [hcont]
  split_ifs <;> rfl

/-- Witness for `claim_C10`: the ordinary message
`"buscar historia clinica"` contains `"ia"` inside `"historia"` (and
`"clinica"`), so its relevance is forced to 0 under the demo vocabulary. -/
theorem claim_C10_witness :
    (∃ w ∈ IALocalService.palabrasIrrelevantesERP,
      hasSubstr (lower (str "buscar historia clinica")) w = true) ∧
    IALocalService.calcularRelevanciaMensaje cfgDemo
      (str "buscar historia clinica") (str "CLINICO") (str "READ") = 0 :=
  ⟨by decide,
    (claim_C10 cfgDemo (str "buscar historia clinica") (str "CLINICO")
      (str "READ") (by decide)).2⟩

/-! ## Claim C9 -/

/-- C9: a resolved result whose module is not in the caller's
`permisos.modulos` is rejected by `IAOutputService.generate` with
`PERMISO_MODULO_DENEGADO`; one whose action is not in
`permisos.acciones` is rejected with `PERMISO_ACCION_DENEGADO`; and
`interpretLocal` surfaces an out-of-permissions module (including the
default-module fallback) as a `Modulo no permitido` error instead of
substituting a permitted one. -/
theorem claim_C9 :
    (∀ (r : IAResult) (p : Permisos), p.modulos.contains r.module = false →
      generate (.resolved r) p = .errorOut (str "PERMISO_MODULO_DENEGADO")) ∧
    (∀ (r : IAResult) (p : Permisos), p.modulos.contains r.module = true →
      p.acciones.contains r.action = false →
      generate (.resolved r) p = .errorOut (str "PERMISO_ACCION_DENEGADO")) ∧
    (∀ (cfg : ConfigMapping)
      (epf : List Char → List Char → List ERPConfigEndpoint)
      (message : List Char) (permisos : Permisos)
      (mods : List (List Char)) (r : IAResult),
      IALocalService.interpret cfg epf message permisos = .ok r →
      mods.contains r.module = false →
      interpretLocal cfg epf message permisos mods =
        .error (str "Modulo no permitido: " ++ r.module)) := by
  refine ⟨?_, ?_, ?_⟩
  · intro r p h
    show generateResolved r p = _
    unfold generateResolved
    rw [h]
    rfl
  · intro r p h1 h2
    show generateResolved r p = _
    unfold generateResolved
    rw [h1, h2]
    rfl
  · intro cfg epf message permisos mods r hok hmod
    unfold interpretLocal
    rw [hok]
    simp only [hmod]
    rfl

/-- Witness for `claim_C9` at concrete inputs: empty permissions reject
the module; module-only permissions reject the action; and
`interpretLocal` with an empty allowed-modules list surfaces the
resolved `VENTAS` module as an error. -/
theorem claim_C9_witness :
    generate (.resolved ⟨str "VENTAS", str "CREATE", str "/clientes/crear",
        [], [], str "POST", none⟩) ⟨[], []⟩ =
      .errorOut (str "PERMISO_MODULO_DENEGADO") ∧
    generate (.resolved ⟨str "VENTAS", str "CREATE", str "/clientes/crear",
        [], [], str "POST", none⟩) ⟨[str "VENTAS"], []⟩ =
      .errorOut (str "PERMISO_ACCION_DENEGADO") ∧
    interpretLocal cfgDemo endpointsForDemo
        (str "crear cliente nombre acme monto 500") permisosDemo [] =
      .error (str "Modulo no permitido: " ++ str "VENTAS") :=
  ⟨claim_C9.1 _ _ (by decide),
    claim_C9.2.1 _ _ (by decide) (by decide),
    claim_C9.2.2 cfgDemo endpointsForDemo
      (str "crear cliente nombre acme monto 500") permisosDemo []
      ((itpDemo (str "crear cliente nombre acme monto 500")).toOption.getD
        ⟨[], [], [], [], [], [], none⟩) (by rfl) (by decide)⟩

/-! ## Claim C1 -/

/-- The session-store invariant: the stored `missingParams` of every
entry is the recomputation over its stored result's payload. -/
def SessionInv (store : Store) : Prop :=
  ∀ e ∈ store, e.2.missingParams = checkMissingParameters e.2.originalResult

theorem sessionInv_storeSet {store : Store} {sid : List Char}
    {pr : PendingRequest} (h : SessionInv store)
    (hpr : pr.missingParams = checkMissingParameters pr.originalResult) :
    SessionInv (storeSet sid pr store) := by
  induction store with
  | nil =>
    intro e he
    unfold storeSet at he
    rcases List.mem_singleton.mp he with rfl
    exact hpr
  | cons kv t ih =>
    obtain ⟨k, v⟩ := kv
    intro e he
    unfold storeSet at he
    split_ifs at he with hk
    · rcases List.mem_cons.mp he with rfl | hin
      · exact hpr
      · exact h _ (List.mem_cons_of_mem _ hin)
    · rcases List.mem_cons.mp he with rfl | hin
      · exact h _ (List.mem_cons_self _ _)
      · exact ih (fun e' he' => h e' (List.mem_cons_of_mem _ he')) e hin

theorem sessionInv_sub {store store' : Store}
    (hsub : ∀ e ∈ store', e ∈ store) (h : SessionInv store) :
    SessionInv store' :=
  fun e he => h e (hsub e he)

theorem processFollowUp_inv {message : List Char} {pr : PendingRequest}
    {sid : List Char} {store : Store} {now : Int} (h : SessionInv store) :
    SessionInv (processFollowUp message pr sid store now).2 := by
  unfold processFollowUp
  simp only []
  split_ifs with he
  · exact sessionInv_sub (fun e => List.mem_of_mem_filter) h
  · exact sessionInv_storeSet h rfl

theorem freshPathSrv_inv {itp : List Char → Except (List Char) IAResult}
    {message ctx : List Char} {active : Option (List Char)}
    {freshId : List Char} {store : Store} {now : Int} (h : SessionInv store) :
    SessionInv (freshPathSrv itp message ctx active freshId store now).2 := by
  unfold freshPathSrv
  cases hitp : itp message with
  | error e => exact h
  | ok result =>
    simp only []
    split_ifs with h1 h2
    · exact h
    · exact sessionInv_storeSet h rfl
    · exact h

theorem interpretSrv_inv (itp : List Char → Except (List Char) IAResult)
    (message ctx : List Char) (sidP sidI : Option (List Char))
    (freshId : List Char) (store : Store) (now : Int) (h : SessionInv store) :
    SessionInv (interpretSrv itp message ctx sidP sidI freshId store now).2 := by
  unfold interpretSrv
  cases hact : jsOrStr sidP sidI with
  | none => exact freshPathSrv_inv h
  | some sid =>
    dsimp only
    cases hget : storeGet sid store with
    | none => exact freshPathSrv_inv h
    | some pr =>
      dsimp only
      have hpf := @processFollowUp_inv message pr sid store now h
      cases hpfe : processFollowUp message pr sid store now with
      | mk fr store' =>
        rw [hpfe] at hpf
        cases fr with
        | needs ps m => exact hpf
        | done r => exact hpf

theorem sessionInv_reachable {store : Store} (h : Reachable store) :
    SessionInv store := by
  induction h with
  | empty => intro e he; cases he
  | step itp message ctx sidP sidI freshId now hr ih =>
    exact interpretSrv_inv _ _ _ _ _ _ _ _ ih
  | sweep now hr ih =>
    exact sessionInv_sub (fun e => List.mem_of_mem_filter) ih

/-- C1: in every reachable session store, each stored session's
`missingParams` equals the recomputation `checkMissingParameters` over
its stored pending result, i.e. its entries are exactly the keys of
`pendingResult.payload` whose value is `undefined`, `null`, `""` or
`"?"` — both fresh-session creation and every follow-up merge re-store
the pair consistently. -/
theorem claim_C1 (store : Store) (hreach : Reachable store)
    (sid : List Char) (pr : PendingRequest)
    (hget : storeGet sid store = some pr) :
    pr.missingParams = checkMissingParameters pr.originalResult ∧
    pr.missingParams.map (·.param) =
      (pr.originalResult.payload.filter
        (fun kv => isMissingValue kv.2)).map (·.1) := by
  have hinv := sessionInv_reachable hreach
  unfold storeGet alookup at hget
  obtain ⟨e, hfind, he2⟩ : ∃ e, (store.find? (fun p => p.1 == sid)) = some e ∧
      e.2 = pr := by
    cases hf : store.find? (fun p => p.1 == sid) with
    | none => rw [hf] at hget; cases hget
    | some e =>
      rw [hf] at hget
      exact ⟨e, rfl, by simpa using hget⟩
  have hmem : e ∈ store := List.mem_of_find?_eq_some hfind
  have h1 : pr.missingParams = checkMissingParameters pr.originalResult :=
    he2 ▸ hinv e hmem
  refine ⟨h1, ?_⟩
  rw [h1]
  unfold checkMissingParameters
  rw [List.map_map]
  rfl

def defaultIAResult : IAResult := ⟨[], [], [], [], [], [], none⟩

/-- First step of the split scenario: `"crear cliente"` with no session
id opens session `sess_1` at time `0`. -/
def demoStep1 : Except (List Char) InterpretOutput × Store :=
  interpretSrv itpDemo (str "crear cliente") (str "ctx") none none
    (str "sess_1") [] 0

def demoStore1 : Store := demoStep1.2

def demoPR : PendingRequest :=
  (storeGet (str "sess_1") demoStore1).getD ⟨defaultIAResult, [], [], 0⟩

/-- Witness for `claim_C1`: the store reached by one fresh
`"crear cliente"` call satisfies the invariant at its stored session. -/
theorem claim_C1_witness :
    storeGet (str "sess_1") demoStore1 = some demoPR ∧
    demoPR.missingParams = checkMissingParameters demoPR.originalResult :=
  ⟨by rfl,
    (claim_C1 demoStore1
      (Reachable.step itpDemo (str "crear cliente") (str "ctx") none none
        (str "sess_1") 0 Reachable.empty)
      (str "sess_1") demoPR (by rfl)).1⟩

/-! ## Claim C2 -/

/-- The direct path: the full message in one turn, no session id. -/
def demoDirect : Except (List Char) InterpretOutput :=
  (interpretSrv itpDemo (str "crear cliente nombre acme monto 500")
    (str "ctx") none none (str "sess_direct") [] 0).1

/-- The split path's follow-up, supplying the missing values. -/
def demoSplitFinal : Except (List Char) InterpretOutput :=
  (interpretSrv itpDemo (str "nombre acme monto 500") (str "ctx")
    (some (str "sess_1")) none (str "zzz") demoStore1 60000).1

/-- The split path's follow-up with the original mixed-case content. -/
def demoSplitFinalUpper : Except (List Char) InterpretOutput :=
  (interpretSrv itpDemo (str "nombre ACME monto 500") (str "ctx")
    (some (str "sess_1")) none (str "zzz") demoStore1 60000).1

/-- The direct path with the original mixed-case content. -/
def demoDirectUpper : Except (List Char) InterpretOutput :=
  (interpretSrv itpDemo (str "crear cliente nombre ACME monto 500")
    (str "ctx") none none (str "sess_direct") [] 0).1

/-- C2 (counterexample): for the spec's own example content
`"crear cliente nombre ACME monto 500"`, the two paths do NOT produce
equal `ResolvedAction`s: the direct path extracts from the normalized
(lower-cased) message and yields `nombre = "acme"`, while the session
follow-up extracts from the raw message and yields `nombre = "ACME"`. -/
theorem claim_C2_counterexample :
    (match demoDirectUpper with
      | .ok (.resolved r) => alookup (str "nombre") r.payload
      | _ => none) = some (.jStr (str "acme")) ∧
    (match demoSplitFinalUpper with
      | .ok (.resolved r) => alookup (str "nombre") r.payload
      | _ => none) = some (.jStr (str "ACME")) ∧
    str "acme" ≠ str "ACME" :=
  ⟨by rfl, by rfl, by decide⟩

/-- C2 (amended): for all-lowercase content
(`"crear cliente nombre acme monto 500"` split as `"crear cliente"`
plus follow-up `"nombre acme monto 500"`), the direct path and the
session path produce the same module, action, endpoint route, method
and payload values; with mixed-case content they differ exactly in the
letter case of the extracted values. -/
theorem claim_C2_amended :
    ∃ rd rs, demoDirect = .ok (.resolved rd) ∧
      demoSplitFinal = .ok (.resolved rs) ∧
      rd.module = rs.module ∧ rd.action = rs.action ∧
      rd.endpoint = rs.endpoint ∧ rd.method = rs.method ∧
      rd.payload = rs.payload :=
  ⟨_, _, rfl, rfl, rfl, rfl, rfl, rfl, rfl⟩

/-! ## Claim C3 -/

theorem freshPathSrv_staleId (itp : List Char → Except (List Char) IAResult)
    (message ctx sid freshId : List Char) (store : Store) (now : Int)
    (hsid : sid.isEmpty = false) :
    freshPathSrv itp message ctx (some sid) freshId store now =
      freshPathSrv itp message ctx none sid store now := by
  unfold freshPathSrv
  cases itp message with
  | error e => rfl
  | ok result => simp [jsOrStr, hsid]

/-- C3 (amended): a follow-up referencing a session id that is **absent
from the store** (deleted by the sweep or on completion) is processed
exactly as a fresh request with no session id — the stale id is reused
as the new session id; and the sweep deletes precisely the entries whose
stored timestamp is more than `SESSION_TIMEOUT` old (every survivor is
younger).  Expiry is enforced only by the sweep: the lookup itself never
checks the timestamp (see the counterexample). -/
theorem claim_C3_amended :
    (∀ (itp : List Char → Except (List Char) IAResult)
      (message ctx sid freshId : List Char) (store : Store) (now : Int),
      sid.isEmpty = false → storeGet sid store = none →
      interpretSrv itp message ctx (some sid) none freshId store now =
        interpretSrv itp message ctx none none sid store now) ∧
    (∀ (now : Int) (store : Store) (e : List Char × PendingRequest),
      e ∈ cleanupExpiredSessions now store →
      now - e.2.timestamp ≤ SESSION_TIMEOUT) := by
  constructor
  · intro itp message ctx sid freshId store now hsid hget
    unfold interpretSrv
    have h1 : jsOrStr (some sid) none = some sid := by simp [jsOrStr, hsid]
    have h2 : jsOrStr (none : Option (List Char)) none = none := rfl
    rw [h1, h2]
    dsimp only
    rw [hget]
    exact freshPathSrv_staleId itp message ctx sid freshId store now hsid
  · intro now store e he
    unfold cleanupExpiredSessions at he
    have := List.of_mem_filter he
    simpa using this

/-- The store after sweeps at 5, 10 and 15 minutes (the session from
`demoStore1` was created at time 0 and survives all three). -/
def c3store : Store :=
  cleanupExpiredSessions (15 * 60 * 1000)
    (cleanupExpiredSessions (10 * 60 * 1000)
      (cleanupExpiredSessions (5 * 60 * 1000) demoStore1))

def c3follow : Except (List Char) InterpretOutput × Store :=
  interpretSrv itpDemo (str "nombre acme monto 500") (str "ctx")
    (some (str "sess_1")) none (str "zzz") c3store (16 * 60 * 1000)

def c3fresh : Except (List Char) InterpretOutput × Store :=
  interpretSrv itpDemo (str "nombre acme monto 500") (str "ctx") none none
    (str "sess_1") c3store (16 * 60 * 1000)

/-- C3 (counterexample): the session was created at time 0, the periodic
sweep ran at 5, 10 and 15 minutes, and a follow-up arrives at 16 minutes
— strictly beyond the 15-minute TTL.  The engine still finds the session
and merges the follow-up into the stale pending result (successful
resolution), while the identical message as a FRESH request fails; the
two are not processed identically. -/
theorem claim_C3_counterexample :
    ((storeGet (str "sess_1") c3store).map (·.timestamp) = some 0) ∧
    ((16 * 60 * 1000 : Int) - 0 > SESSION_TIMEOUT) ∧
    (∃ r, c3follow.1 = .ok (.resolved r) ∧ r.module = str "VENTAS") ∧
    (c3fresh.1 = .error
      (str "Error al interpretar: No hay endpoints para VENTAS/READ")) ∧
    c3follow.1.isOk ≠ c3fresh.1.isOk :=
  ⟨by rfl, by decide, ⟨_, rfl, rfl⟩, by rfl, by decide⟩

/-- Witness for `claim_C3_amended`: a follow-up naming the deleted id
`sess_gone` on the demo store behaves as a fresh request, and the sweep
fact holds on `c3store`. -/
theorem claim_C3_witness :
    interpretSrv itpDemo (str "crear cliente") (str "ctx")
        (some (str "sess_gone")) none (str "fresh_9") demoStore1 60000 =
      interpretSrv itpDemo (str "crear cliente") (str "ctx") none none
        (str "sess_gone") demoStore1 60000 :=
  claim_C3_amended.1 itpDemo (str "crear cliente") (str "ctx")
    (str "sess_gone") (str "fresh_9") demoStore1 60000 (by decide) (by rfl)

/-! ## Claim C4 -/

/-- C4 (amended): a configuration that fails `validateConfig` makes the
`ConfigLoader` constructor throw, and a direct
`new IALocalService(config)` propagates that error — but the file-loading
path catches every such error and starts the engine on the built-in
fallback configuration instead of failing. -/
theorem claim_C4_amended (cfg : ConfigMappingJS) (e : List Char)
    (h : validateConfig cfg = .error e) :
    mkConfigLoader cfg = .error e ∧
    mkIALocalService (some cfg) none = .error e ∧
    loadConfigFromFile (some cfg) = createFallbackConfig ∧
    (∀ fc, createIALocalService (some cfg) fc = loadConfigFromFile fc) := by
  have h1 : mkConfigLoader cfg = .error e := by
    unfold mkConfigLoader
    rw [h]
  refine ⟨h1, h1, ?_, ?_⟩
  · unfold loadConfigFromFile
    dsimp only
    rw [h1]
  · intro fc
    unfold createIALocalService mkIALocalService
    dsimp only
    rw [h1]

/-- A configuration whose `vocabulario` section is missing. -/
def badCfgJS : ConfigMappingJS :=
  { fallbackConfigJS with
    version := some (str "1.0.0")
    vocabulario := none }

/-- C4 (counterexample): with `vocabulario` missing, validation throws
the fatal error, yet `loadConfigFromFile` catches it and the engine
starts serving on the substitute fallback configuration (version
`1.0.0-fallback`) instead of failing startup. -/
theorem claim_C4_counterexample :
    validateConfig badCfgJS =
      .error (str "Configuracion debe tener vocabulario.modulos") ∧
    mkConfigLoader badCfgJS =
      .error (str "Configuracion debe tener vocabulario.modulos") ∧
    loadConfigFromFile (some badCfgJS) = createFallbackConfig ∧
    (loadConfigFromFile (some badCfgJS)).config.version =
      some (str "1.0.0-fallback") ∧
    (createIALocalService (some badCfgJS) none).config.version =
      some (str "1.0.0-fallback") :=
  ⟨by rfl, by rfl, by rfl, by rfl, by rfl⟩

/-- Witness for `claim_C4_amended` at the concrete invalid config. -/
theorem claim_C4_witness :
    mkConfigLoader badCfgJS =
      .error (str "Configuracion debe tener vocabulario.modulos") ∧
    loadConfigFromFile (some badCfgJS) = createFallbackConfig :=
  ⟨(claim_C4_amended badCfgJS _ (by rfl)).1,
    (claim_C4_amended badCfgJS _ (by rfl)).2.2.1⟩

/-! ## Claim C5 -/

def dsEndpointListarPacientes : DSEndpoint :=
  ⟨str "Listar Pacientes",
    [⟨str "oEntity", str "object", true, [⟨str "T_Descripcion", str "string"⟩]⟩]⟩

/-- C5 (counterexample): in `IALocalService.interpretEndpoint` the
extraction templates run against the **normalized, lower-cased** message
and nothing is upper-cased: `"buscar paciente Juan Perez"` resolves with
description field `"juan perez"`, not `"JUAN PEREZ"` as the claim
states. -/
theorem claim_C5_counterexample :
    (IALocalService.interpret cfgDemo endpointsForDemo
        (str "buscar paciente Juan Perez") permisosDemo).map
      (fun r => alookup (str "descripcion") r.payload) =
      .ok (some (.jStr (str "juan perez"))) ∧
    str "juan perez" ≠ str "JUAN PEREZ" :=
  ⟨by rfl, by decide⟩

/-- C5 (amended): the local engine's `buildPayload` loop runs each
key's extraction templates against `normalizarTexto` of the message
(lower-cased), with no upper-casing — so the scenario message yields
`"juan perez"`; the original-message, upper-cased extraction that
produces `"JUAN PEREZ"` lives in the DeepSeek service's
`construirPayloadDesdeMensaje` for nested string properties. -/
theorem claim_C5_amended :
    (∀ (cfg : ConfigMapping) (message : List Char)
      (endpoints : List ERPConfigEndpoint) (m a : List Char)
      (res : IALocalService.EndpointResult),
      IALocalService.interpretEndpoint cfg message endpoints m a = .ok res →
      res.payload = res.endpointConfig.payload.map (fun kv =>
        match ConfigLoader.extraerParametro cfg
            (ConfigLoader.normalizarTexto cfg message) kv.1 with
        | some v => (kv.1, JValue.jStr v)
        | none => kv)) ∧
    ((IALocalService.interpret cfgDemo endpointsForDemo
        (str "buscar paciente Juan Perez") permisosDemo).map
      (fun r => alookup (str "descripcion") r.payload) =
      .ok (some (.jStr (str "juan perez")))) ∧
    construirPayloadDesdeMensaje dsEndpointListarPacientes
        (str "buscar paciente Juan Perez") =
      [(str "oEntity", .jObj [(str "T_Descripcion",
        .jStr (str "JUAN PEREZ"))])] := by
  refine ⟨?_, by rfl, by rfl⟩
  intro cfg message endpoints m a res h
  unfold IALocalService.interpretEndpoint at h
  dsimp only at h
  split_ifs at h with he
  cases hpb : ConfigLoader.pickBestBy Prod.snd (endpoints.map (fun ep =>
      (ep, IALocalService.endpointScore cfg
        (ConfigLoader.normalizarTexto cfg message) m a ep))) with
  | none =>
    rw [hpb] at h
    exact absurd h (by simp)
  | some mejor =>
    rw [hpb] at h
    dsimp only at h
    split_ifs at h with hlt
    injection h with h2
    rw [← h2]

def resC5 : IALocalService.EndpointResult :=
  (IALocalService.interpretEndpoint cfgDemo (str "buscar paciente Juan Perez")
    [epBuscarPaciente] (str "CLINICO") (str "READ")).toOption.getD
    ⟨[], [], ⟨[], [], [], [], [], []⟩, Frac.ofInt 0⟩

/-- Witness for `claim_C5_amended` at the scenario inputs. -/
theorem claim_C5_witness :
    IALocalService.interpretEndpoint cfgDemo (str "buscar paciente Juan Perez")
        [epBuscarPaciente] (str "CLINICO") (str "READ") = .ok resC5 ∧
    resC5.payload = resC5.endpointConfig.payload.map (fun kv =>
      match ConfigLoader.extraerParametro cfgDemo
          (ConfigLoader.normalizarTexto cfgDemo
            (str "buscar paciente Juan Perez")) kv.1 with
      | some v => (kv.1, JValue.jStr v)
      | none => kv) := by
  have hs : (IALocalService.interpretEndpoint cfgDemo
      (str "buscar paciente Juan Perez") [epBuscarPaciente] (str "CLINICO")
      (str "READ")).toOption.isSome = true := by decide
  have h : IALocalService.interpretEndpoint cfgDemo
      (str "buscar paciente Juan Perez") [epBuscarPaciente] (str "CLINICO")
      (str "READ") = .ok resC5 := by
    cases hx : IALocalService.interpretEndpoint cfgDemo
        (str "buscar paciente Juan Perez") [epBuscarPaciente] (str "CLINICO")
        (str "READ") with
    | error e =>
      rw [hx] at hs
      cases hs
    | ok r =>
      have hr : resC5 = r := by
        unfold resC5
        rw [hx]
        rfl
      rw [hr]
  exact ⟨h, claim_C5_amended.1 cfgDemo (str "buscar paciente Juan Perez")
    [epBuscarPaciente] (str "CLINICO") (str "READ") resC5 h⟩

/-! ## Claim C6 -/

/-- C6 (amended): endpoint selection fails with the no-endpoints error
exactly on an empty candidate list; on a non-empty list, with `best` the
first maximum of the scored candidates, it fails with the fixed
low-confidence error (which does **not** carry the score — see the
counterexample) exactly when `best`'s score is below
`umbralMinimoConfianza`, and otherwise returns `best` itself (whose score
bounds every candidate's score). -/
theorem claim_C6_amended :
    (∀ (cfg : ConfigMapping) (message m a : List Char),
      IALocalService.interpretEndpoint cfg message [] m a =
        .error (str "No hay endpoints para " ++ m ++ str "/" ++ a)) ∧
    (∀ (cfg : ConfigMapping) (message m a : List Char)
      (ep : ERPConfigEndpoint) (eps : List ERPConfigEndpoint)
      (best : ERPConfigEndpoint × Frac),
      ConfigLoader.pickBestBy Prod.snd ((ep :: eps).map (fun e =>
        (e, IALocalService.endpointScore cfg
          (ConfigLoader.normalizarTexto cfg message) m a e))) = some best →
      (∀ e ∈ ep :: eps,
        Frac.ble (IALocalService.endpointScore cfg
          (ConfigLoader.normalizarTexto cfg message) m a e) best.2 = true) ∧
      (Frac.blt best.2 cfg.umbralMinimoConfianza = true →
        IALocalService.interpretEndpoint cfg message (ep :: eps) m a =
          .error (str "No se encontro endpoint con suficiente coincidencia")) ∧
      (Frac.blt best.2 cfg.umbralMinimoConfianza = false →
        IALocalService.interpretEndpoint cfg message (ep :: eps) m a = .ok
          ⟨best.1.endpoint,
            best.1.payload.map (fun kv =>
              match ConfigLoader.extraerParametro cfg
                  (ConfigLoader.normalizarTexto cfg message) kv.1 with
              | some v => (kv.1, JValue.jStr v)
              | none => kv),
            best.1, best.2⟩)) := by
  constructor
  · intro cfg message m a
    rfl
  · intro cfg message m a ep eps best hpb
    refine ⟨?_, ?_, ?_⟩
    · intro e he
      obtain ⟨b, hpb2, hmem, hmax⟩ := pickBest_spec Prod.snd
        ((fun e => (e, IALocalService.endpointScore cfg
          (ConfigLoader.normalizarTexto cfg message) m a e)) ep)
        (eps.map (fun e => (e, IALocalService.endpointScore cfg
          (ConfigLoader.normalizarTexto cfg message) m a e)))
      have hbb : b = best := by
        rw [List.map_cons] at hpb
        rw [hpb] at hpb2
        exact (Option.some_inj.mp hpb2).symm ▸ rfl
      have hin : (fun e => (e, IALocalService.endpointScore cfg
          (ConfigLoader.normalizarTexto cfg message) m a e)) e ∈ _ :=
        List.mem_map_of_mem (fun e => (e, IALocalService.endpointScore cfg
          (ConfigLoader.normalizarTexto cfg message) m a e)) he
      rw [List.map_cons] at hin
      have := hmax _ hin
      rw [hbb] at this
      exact this
    · intro hlt
      unfold IALocalService.interpretEndpoint
      rw [if_neg (by simp)]
      dsimp only
      rw [hpb]
      dsimp only
      rw [if_pos hlt]
    · intro hlt
      unfold IALocalService.interpretEndpoint
      rw [if_neg (by simp)]
      dsimp only
      rw [hpb]
      dsimp only
      rw [if_neg (by rw [hlt]; exact Bool.false_ne_true)]

/-- C6 (counterexample): the low-confidence failure does not carry the
best score.  Two messages with different best scores (`"hola"` and
`"nuevo registro"` against the create-client endpoint) produce the
identical fixed error value, so the failure cannot carry the best score
as the claim states. -/
theorem claim_C6_counterexample :
    (match IALocalService.interpretEndpoint cfgDemo (str "hola")
        [epCrearCliente] (str "VENTAS") (str "CREATE") with
      | .error e => some e
      | _ => none) =
      some (str "No se encontro endpoint con suficiente coincidencia") ∧
    (match IALocalService.interpretEndpoint cfgDemo (str "nuevo registro")
        [epCrearCliente] (str "VENTAS") (str "CREATE") with
      | .error e => some e
      | _ => none) =
      some (str "No se encontro endpoint con suficiente coincidencia") ∧
    Frac.beq
      (IALocalService.endpointScore cfgDemo
        (ConfigLoader.normalizarTexto cfgDemo (str "hola"))
        (str "VENTAS") (str "CREATE") epCrearCliente)
      (IALocalService.endpointScore cfgDemo
        (ConfigLoader.normalizarTexto cfgDemo (str "nuevo registro"))
        (str "VENTAS") (str "CREATE") epCrearCliente) = false :=
  ⟨by decide, by decide, by decide⟩

def c6best : ERPConfigEndpoint × Frac :=
  (ConfigLoader.pickBestBy Prod.snd ([epCrearCliente].map (fun e =>
    (e, IALocalService.endpointScore cfgDemo
      (ConfigLoader.normalizarTexto cfgDemo (str "crear cliente"))
      (str "VENTAS") (str "CREATE") e)))).getD (epCrearCliente, 0)

set_option maxHeartbeats 4000000 in
/-- Witness for `claim_C6_amended` at the create-client scenario (the
best candidate clears the threshold, so the endpoint is returned). -/
theorem claim_C6_witness :
    ConfigLoader.pickBestBy Prod.snd ([epCrearCliente].map (fun e =>
      (e, IALocalService.endpointScore cfgDemo
        (ConfigLoader.normalizarTexto cfgDemo (str "crear cliente"))
        (str "VENTAS") (str "CREATE") e))) = some c6best ∧
    Frac.blt c6best.2 cfgDemo.umbralMinimoConfianza = false ∧
    IALocalService.interpretEndpoint cfgDemo (str "crear cliente")
        [epCrearCliente] (str "VENTAS") (str "CREATE") = .ok
      ⟨c6best.1.endpoint,
        c6best.1.payload.map (fun kv =>
          match ConfigLoader.extraerParametro cfgDemo
              (ConfigLoader.normalizarTexto cfgDemo (str "crear cliente"))
              kv.1 with
          | some v => (kv.1, JValue.jStr v)
          | none => kv),
        c6best.1, c6best.2⟩ :=
  ⟨by rfl, by decide,
    (claim_C6_amended.2 cfgDemo (str "crear cliente") (str "VENTAS")
      (str "CREATE") epCrearCliente [] c6best (by rfl)).2.2 (by decide)⟩

/-! ## Claim C7 -/

theorem wordsAux_map_lower : ∀ (s acc : List Char),
    wordsAux (lower acc) (lower s) = (wordsAux acc s).map lower := by
  intro s
  induction s with
  | nil =>
    intro acc
    show wordsAux (lower acc) [] = _
    unfold wordsAux
    by_cases ha : acc = []
    · rw [ha]
      rfl
    · have hla : lower acc ≠ [] := by
        intro he
        exact ha (List.map_eq_nil_iff.mp he)
      rw [if_neg hla, if_neg ha]
      simp [lower, List.map_reverse]
  | cons c t ih =>
    intro acc
    show wordsAux (lower acc) (jsToLower c :: lower t) = _
    unfold wordsAux
    rw [isWsChar_jsToLower]
    by_cases hc : isWsChar c = true
    · rw [if_pos hc, if_pos hc]
      by_cases ha : acc = []
      · have hla : lower acc = [] := by rw [ha]; rfl
        rw [if_pos hla, if_pos ha]
        have := ih []
        simpa [lower] using this
      · have hla : lower acc ≠ [] := by
          intro he
          exact ha (List.map_eq_nil_iff.mp he)
        rw [if_neg hla, if_neg ha]
        have h5 := ih []
        simp only [lower, List.map_nil] at h5
        simp only [lower, List.map_reverse, List.map_cons]
        rw [h5]
    · rw [if_neg hc, if_neg hc]
      have := ih (c :: acc)
      simpa [lower] using this

theorem lower_renderWords : ∀ L : List (List Char),
    lower (renderWords L) = renderWords (L.map lower) := by
  intro L
  induction L with
  | nil => rfl
  | cons w ws ih =>
    cases ws with
    | nil => rfl
    | cons y ys =>
      show lower (w ++ ' ' :: renderWords (y :: ys)) = _
      simp only [lower, List.map_append, List.map_cons]
      have h1 : jsToLower ' ' = ' ' := by decide
      rw [h1]
      simp only [lower] at ih
      rw [ih]
      rfl

theorem lower_collapse_comm (s : List Char) :
    lower (collapseWsTrim s) = collapseWsTrim (lower s) := by
  unfold collapseWsTrim wsWords
  rw [lower_renderWords]
  have := wordsAux_map_lower s []
  simp only [lower, List.map_nil] at this
  simp only [lower]
  rw [this]

theorem wordsAux_all_nonws : ∀ (s acc : List Char),
    (∀ c ∈ acc, isWsChar c = false) →
    ∀ w ∈ wordsAux acc s, w ≠ [] ∧ ∀ c ∈ w, isWsChar c = false := by
  intro s
  induction s with
  | nil =>
    intro acc hacc w hw
    unfold wordsAux at hw
    split_ifs at hw with ha
    · cases hw
    · rw [List.mem_singleton.mp hw]
      constructor
      · intro he
        exact ha (by simpa using congrArg List.reverse he)
      · intro c hc
        exact hacc c (List.mem_reverse.mp hc)
  | cons c t ih =>
    intro acc hacc w hw
    unfold wordsAux at hw
    split_ifs at hw with hc ha
    · exact ih [] (by intro c hc; cases hc) w hw
    · rcases List.mem_cons.mp hw with rfl | hin
      · constructor
        · intro he
          exact ha (by simpa using congrArg List.reverse he)
        · intro x hx
          exact hacc x (List.mem_reverse.mp hx)
      · exact ih [] (by intro x hx; cases hx) w hin
    · refine ih (c :: acc) ?_ w hw
      intro x hx
      rcases List.mem_cons.mp hx with rfl | hin
      · exact Bool.not_eq_true _ ▸ hc
      · exact hacc x hin

theorem wordsAux_nonws_run : ∀ (w : List Char),
    (∀ c ∈ w, isWsChar c = false) →
    ∀ (acc t : List Char), wordsAux acc (w ++ t) = wordsAux (w.reverse ++ acc) t := by
  intro w
  induction w with
  | nil =>
    intro _ acc t
    rfl
  | cons c w' ih =>
    intro hw acc t
    have hstep : wordsAux acc ((c :: w') ++ t) = wordsAux (c :: acc) (w' ++ t) := by
      show wordsAux acc (c :: (w' ++ t)) = _
      simp only [wordsAux]
      rw [hw c (List.mem_cons_self _ _)]
      simp
    rw [hstep, ih (fun x hx => hw x (List.mem_cons_of_mem _ hx)) (c :: acc) t]
    congr 1
    simp

theorem wsWords_renderWords : ∀ L : List (List Char),
    (∀ w ∈ L, w ≠ [] ∧ ∀ c ∈ w, isWsChar c = false) →
    wsWords (renderWords L) = L := by
  intro L
  induction L with
  | nil =>
    intro _
    rfl
  | cons w ws ih =>
    intro hL
    obtain ⟨hw, hwc⟩ := hL w (List.mem_cons_self _ _)
    cases ws with
    | nil =>
      show wsWords (renderWords [w]) = [w]
      unfold wsWords
      have h6 : wordsAux ([] : List Char) (w ++ []) =
          wordsAux (w.reverse ++ []) [] := wordsAux_nonws_run w hwc [] []
      rw [List.append_nil, List.append_nil] at h6
      show wordsAux [] w = [w]
      rw [h6]
      unfold wordsAux
      rw [if_neg (by simpa using hw)]
      simp
    | cons y ys =>
      show wsWords (w ++ ' ' :: renderWords (y :: ys)) = _
      unfold wsWords
      rw [wordsAux_nonws_run w hwc [] (' ' :: renderWords (y :: ys))]
      unfold wordsAux
      rw [if_pos (by decide), if_neg (by simpa using hw)]
      have := ih (fun v hv => hL v (List.mem_cons_of_mem _ hv))
      unfold wsWords at this
      rw [this]
      simp

theorem collapse_idem (s : List Char) :
    collapseWsTrim (collapseWsTrim s) = collapseWsTrim s := by
  show renderWords (wsWords (collapseWsTrim s)) = collapseWsTrim s
  unfold collapseWsTrim
  rw [wsWords_renderWords (wsWords s) (wordsAux_all_nonws s []
    (by intro c hc; cases hc))]

/-- C7 (amended): with no configured spelling corrections, removal words
or stop words, `normalizarTexto` (lower-case + whitespace collapse +
trim) is idempotent for every input.  With a non-empty stop-word list it
is not — see the counterexample. -/
theorem claim_C7_amended (cfg : ConfigMapping) (texto : List Char)
    (h1 : cfg.correccionesOrtograficas = [])
    (h2 : cfg.eliminarPalabras = [])
    (h3 : cfg.palabrasVacias = []) :
    ConfigLoader.normalizarTexto cfg (ConfigLoader.normalizarTexto cfg texto) =
      ConfigLoader.normalizarTexto cfg texto := by
  have hnorm : ∀ s, ConfigLoader.normalizarTexto cfg s =
      if s = [] then [] else collapseWsTrim (lower s) := by
    intro s
    unfold ConfigLoader.normalizarTexto
    rw [h1, h2, h3]
    rfl
  by_cases ht : texto = []
  · rw [hnorm texto, if_pos ht, hnorm, if_pos rfl]
  · rw [hnorm texto, if_neg ht]
    by_cases hu : collapseWsTrim (lower texto) = []
    · rw [hnorm, if_pos hu]
      exact hu.symm
    · rw [hnorm, if_neg hu, lower_collapse_comm, lower_idem]
      exact collapse_idem _

/-- The configuration of the C7 counterexample: one stop word `p`. -/
def cfg7 : ConfigMapping := { cfgDemo with palabrasVacias := [str "p"] }

/-- C7 (counterexample): with stop word `p`, normalizing `"x p p x"`
once yields `"x p x"` (the global regex consumes the whitespace after
the first `p`, hiding the second) and normalizing again yields `"x x"`:
normalization is not idempotent for every input and configuration. -/
theorem claim_C7_counterexample :
    ConfigLoader.normalizarTexto cfg7 (str "x p p x") = str "x p x" ∧
    ConfigLoader.normalizarTexto cfg7
      (ConfigLoader.normalizarTexto cfg7 (str "x p p x")) = str "x x" ∧
    ConfigLoader.normalizarTexto cfg7
        (ConfigLoader.normalizarTexto cfg7 (str "x p p x")) ≠
      ConfigLoader.normalizarTexto cfg7 (str "x p p x") :=
  ⟨by decide, by decide, by decide⟩

/-- Witness for `claim_C7_amended`: the demo configuration has empty
normalization tables, and a concrete double application is fixed. -/
theorem claim_C7_witness :
    cfgDemo.correccionesOrtograficas = [] ∧
    ConfigLoader.normalizarTexto cfgDemo
        (ConfigLoader.normalizarTexto cfgDemo (str "  Crear   Cliente ")) =
      ConfigLoader.normalizarTexto cfgDemo (str "  Crear   Cliente ") :=
  ⟨rfl, claim_C7_amended cfgDemo (str "  Crear   Cliente ") rfl rfl rfl⟩
